import Mathlib

/-!
Verification of the GDScript compiler core (lexer, parser, semantic analyzer,
code generator) against its natural-language specification.

The C++ sources are shallowly embedded: each C++ function becomes a Lean
definition of the same name operating on an explicit state record.  C++
`std::unordered_map` fields are modelled as association lists whose
`mapInsert` replaces the value in place, exactly matching the observable
behaviour of `operator[]` assignment (lookup, membership test, overwrite).
C++ `std::vector` stacks (`push_back` / `back` / `pop_back`) are modelled as
Lean lists with the top at the head.
-/

set_option maxHeartbeats 2000000
set_option linter.unusedVariables false

namespace GDC

/-- Lookup in an association-list model of `std::unordered_map`. -/
def mapFind {β : Type} (m : List (String × β)) (k : String) : Option β :=
  match m with
  | [] => none
  | (k0, v0) :: rest => if k0 = k then some v0 else mapFind rest k

/-- `m[k] = v` on an `std::unordered_map`: replace in place or append. -/
def mapInsert {β : Type} (m : List (String × β)) (k : String) (v : β) :
    List (String × β) :=
  match m with
  | [] => [(k, v)]
  | (k0, v0) :: rest =>
      if k0 = k then (k, v) :: rest else (k0, v0) :: mapInsert rest k v

/-- Membership test `m.find(k) != m.end()`. -/
def mapContains {β : Type} (m : List (String × β)) (k : String) : Bool :=
  (mapFind m k).isSome

/-! ## Tokens (lexer.h) -/

/-- `enum class TokenType` from lexer.h.  The last constructor is named
`ANNOTATION` in the C++ source; it is shortened to `ANNOT` here. -/
inductive TokenType where
  | INTEGER | FLOAT | STRING | BOOLEAN | NULL_LITERAL
  | IDENTIFIER
  | IF | ELIF | ELSE
  | FOR | WHILE | MATCH | WHEN
  | BREAK | CONTINUE | PASS | RETURN
  | CLASS | CLASS_NAME | EXTENDS
  | IS | IN | AS | SELF | SUPER
  | SIGNAL | FUNC | STATIC
  | CONST | ENUM | VAR
  | BREAKPOINT | PRELOAD | AWAIT
  | YIELD | ASSERT | VOID
  | AND | OR | NOT | LAMBDA
  | PLUS | MINUS | MULTIPLY | DIVIDE | MODULO
  | ASSIGN | PLUS_ASSIGN | MINUS_ASSIGN
  | MULTIPLY_ASSIGN | DIVIDE_ASSIGN | MODULO_ASSIGN
  | TYPE_INFER_ASSIGN
  | EQUAL | NOT_EQUAL | LESS | LESS_EQUAL
  | GREATER | GREATER_EQUAL
  | LOGICAL_AND | LOGICAL_OR | LOGICAL_NOT
  | BITWISE_AND | BITWISE_OR | BITWISE_XOR
  | BITWISE_NOT | LEFT_SHIFT | RIGHT_SHIFT
  | LEFT_PAREN | RIGHT_PAREN
  | LEFT_BRACKET | RIGHT_BRACKET
  | LEFT_BRACE | RIGHT_BRACE
  | COMMA | DOT | COLON | SEMICOLON
  | ARROW | DOLLAR | PERCENT
  | NEWLINE | INDENT | DEDENT
  | EOF_TOKEN | INVALID
  | ANNOT
  deriving DecidableEq, Repr

/-- `struct Token` from lexer.h. -/
structure Token where
  type : TokenType
  value : String
  line : Nat
  column : Nat
  deriving DecidableEq, Repr

/-! ## Lexer (lexer.cpp)

The C++ lexer walks an index `current` through the source string.  Here the
not-yet-consumed suffix of the source is passed around as a `List Char`; the
C++ "back up one character" before `scanNumber` / `scanIdentifier` (which
only undoes the advance just made) is rendered by calling those helpers on
the un-consumed list directly. -/

/-- Mutable lexer state (everything except the remaining input). -/
structure LexState where
  line : Nat
  column : Nat
  indentStack : List Nat   -- head is the vector's back (top of stack)
  tokens : List Token
  errors : List String
  deriving Repr

/-- `Lexer::Lexer`: line 1, column 1, indent stack `[0]`. -/
def initLexState : LexState :=
  { line := 1, column := 1, indentStack := [0], tokens := [], errors := [] }

/-- `Lexer::isAlpha`. -/
def isAlphaCh (c : Char) : Bool := c.isAlpha || c = '_'

/-- `Lexer::isDigit`. -/
def isDigitCh (c : Char) : Bool := c.isDigit

/-- `Lexer::isAlphaNumeric`. -/
def isAlphaNumericCh (c : Char) : Bool := isAlphaCh c || isDigitCh c

/-- `Lexer::advance` position bookkeeping for one consumed character. -/
def adv1 (st : LexState) (c : Char) : LexState :=
  if c = '\n' then { st with line := st.line + 1, column := 1 }
  else { st with column := st.column + 1 }

/-- Position bookkeeping for a run of consumed non-newline characters. -/
def advRun (st : LexState) (n : Nat) : LexState :=
  { st with column := st.column + n }

/-- `Lexer::addToken` (records the current line and column). -/
def addToken (st : LexState) (type : TokenType) (value : String := "") :
    LexState :=
  { st with tokens := st.tokens ++ [⟨type, value, st.line, st.column⟩] }

/-- `Lexer::addError`. -/
def addLexError (st : LexState) (message : String) : LexState :=
  { st with errors := st.errors ++
      ["Line " ++ toString st.line ++ ", Column " ++ toString st.column ++
       ": " ++ message] }

/-- Take the longest prefix satisfying `p`, returning it and the rest. -/
def spanP (p : Char → Bool) : List Char → List Char × List Char
  | [] => ([], [])
  | c :: cs =>
      if p c then
        let (t, r) := spanP p cs
        (c :: t, r)
      else ([], c :: cs)

/-- `Lexer::keywords`: the static keyword map, as its initializer list. -/
def keywordTable : List (String × TokenType) :=
  [("if", .IF), ("elif", .ELIF), ("else", .ELSE),
   ("for", .FOR), ("while", .WHILE), ("match", .MATCH),
   ("when", .WHEN), ("break", .BREAK), ("continue", .CONTINUE),
   ("pass", .PASS), ("return", .RETURN), ("class", .CLASS),
   ("class_name", .CLASS_NAME), ("extends", .EXTENDS),
   ("is", .IS), ("in", .IN), ("as", .AS),
   ("self", .SELF), ("super", .SUPER), ("signal", .SIGNAL),
   ("func", .FUNC), ("static", .STATIC), ("const", .CONST),
   ("enum", .ENUM), ("var", .VAR), ("breakpoint", .BREAKPOINT),
   ("preload", .PRELOAD), ("await", .AWAIT), ("yield", .YIELD),
   ("assert", .ASSERT), ("void", .VOID), ("and", .AND),
   ("or", .OR), ("not", .NOT), ("lambda", .LAMBDA),
   ("true", .BOOLEAN), ("false", .BOOLEAN), ("null", .NULL_LITERAL)]

/-- `keywords.find(value)` lookup. -/
def keywords (s : String) : Option TokenType :=
  mapFind keywordTable s

/-- `Lexer::scanIdentifier` (called on the un-consumed input). -/
def scanIdentifier (st : LexState) (cs : List Char) :
    LexState × List Char :=
  let (word, rest) := spanP isAlphaNumericCh cs
  let st := advRun st word.length
  let value := String.mk word
  let type := (keywords value).getD .IDENTIFIER
  (addToken st type value, rest)

/-- Fractional-part phase of `Lexer::scanNumber`: a decimal point is only
consumed when a digit follows it.  Returns consumed characters and rest. -/
def scanFracPart (r1 : List Char) : List Char × Bool × List Char :=
  match r1 with
  | '.' :: r1a =>
      if (r1a.headD ' ').isDigit then
        let (d2, r1b) := spanP isDigitCh r1a
        ('.' :: d2, true, r1b)
      else ([], false, '.' :: r1a)
  | _ => ([], false, r1)

/-- Scientific-notation phase of `Lexer::scanNumber`. -/
def scanExpPart (r2 : List Char) : List Char × Bool × List Char :=
  if r2.headD ' ' = 'e' ∨ r2.headD ' ' = 'E' then
    let e := r2.headD ' '
    let r2a := r2.tail
    let hasSign := r2a.headD ' ' = '+' ∨ r2a.headD ' ' = '-'
    let sgn : List Char := if hasSign then [r2a.headD ' '] else []
    let r2b := if hasSign then r2a.tail else r2a
    (e :: (sgn ++ (spanP isDigitCh r2b).1), true, (spanP isDigitCh r2b).2)
  else ([], false, r2)

/-- `Lexer::scanNumber` (called on the un-consumed input). -/
def scanNumber (st : LexState) (cs : List Char) :
    LexState × List Char :=
  let (d1, r1) := spanP isDigitCh cs
  let (frac, isFloat1, r2) := scanFracPart r1
  let (expo, isFloat2, r3) := scanExpPart r2
  let value := d1 ++ frac ++ expo
  let isFloat := isFloat1 || isFloat2
  let st := advRun st (cs.length - r3.length)
  (addToken st (if isFloat then .FLOAT else .INTEGER) (String.mk value), r3)

/-- `Lexer::scanComment`. -/
def scanComment (st : LexState) (cs : List Char) :
    LexState × List Char :=
  let (skipped, rest) := spanP (fun c => !(c = '\n')) cs
  (advRun st skipped.length, rest)

/-- Escape translation inside `Lexer::scanString`. -/
def escapeChar (e : Char) : Char :=
  if e = 'n' then '\n' else if e = 't' then '\t' else if e = 'r' then '\r'
  else if e = '\\' then '\\' else if e = '"' then '"'
  else if e = '\'' then '\'' else e

/-- The loop of `Lexer::scanString` (quote already consumed).  Note the C++
pre-increments `line` when it peeks a newline and then `advance` increments
it again; both increments are reproduced. -/
def scanStringLoop (quote : Char) (st : LexState) (value : List Char)
    (cs : List Char) : LexState × List Char :=
  match cs with
  | [] =>
      -- unterminated string: error, no token
      (addLexError st "Unterminated string", [])
  | c :: rest =>
      if c = quote then
        let st := adv1 st c
        (addToken st .STRING (String.mk value), rest)
      else
        let st := if c = '\n' then { st with line := st.line + 1, column := 1 }
                  else st
        if c = '\\' then
          let st := adv1 st '\\'
          match rest with
          | [] =>
              -- `advance` at end of input returns the null character
              scanStringLoop quote st (value ++ [Char.ofNat 0]) []
          | e :: rest2 =>
              let st := adv1 st e
              scanStringLoop quote st (value ++ [escapeChar e]) rest2
        else
          let st := adv1 st c
          scanStringLoop quote st (value ++ [c]) rest

/-- `Lexer::scanString` (opening quote already consumed by `scanToken`). -/
def scanString (st : LexState) (quote : Char) (cs : List Char) :
    LexState × List Char :=
  scanStringLoop quote st [] cs

/-- Leading-whitespace counting in `Lexer::handleIndentation`
(space counts 1, tab counts 4); returns level, consumed count, rest. -/
def indentSpan : List Char → Nat × Nat × List Char
  | [] => (0, 0, [])
  | c :: cs =>
      if c = ' ' then
        let (lvl, n, rest) := indentSpan cs
        (lvl + 1, n + 1, rest)
      else if c = '\t' then
        let (lvl, n, rest) := indentSpan cs
        (lvl + 4, n + 1, rest)
      else (0, 0, c :: cs)

/-- The dedent-popping loop of `Lexer::handleIndentation`: pop while the top
exceeds `level`, emitting a `DEDENT` token (carrying the current position)
per pop.  Returns the remaining stack and the extended token list. -/
def popDedents (line column level : Nat) :
    List Nat → List Token → List Nat × List Token
  | [], tokens => ([], tokens)
  | top :: rest, tokens =>
      if level < top then
        popDedents line column level rest
          (tokens ++ [⟨.DEDENT, "", line, column⟩])
      else (top :: rest, tokens)

/-- The indent-stack comparison of `Lexer::handleIndentation` (after
leading whitespace was counted and blank/comment lines were excluded). -/
def indentCore (st : LexState) (level : Nat) : LexState :=
  let currentIndent := st.indentStack.headD 0
  if level > currentIndent then
    addToken { st with indentStack := level :: st.indentStack } .INDENT
  else if level < currentIndent then
    let stk := (popDedents st.line st.column level st.indentStack st.tokens).1
    let toks := (popDedents st.line st.column level st.indentStack st.tokens).2
    let st := { st with indentStack := stk, tokens := toks }
    if st.indentStack = [] ∨ st.indentStack.headD 0 ≠ level then
      addLexError st "Invalid indentation level"
    else st
  else st

/-- `Lexer::handleIndentation`. -/
def handleIndentation (st : LexState) (cs : List Char) :
    LexState × List Char :=
  let level := (indentSpan cs).1
  let n := (indentSpan cs).2.1
  let rest := (indentSpan cs).2.2
  let st := advRun st n
  -- skip empty lines and comments; peek at end of input yields the null
  -- character, which is neither a newline nor a hash
  if rest.headD (Char.ofNat 0) = '\n' ∨ rest.headD (Char.ofNat 0) = '#' then
    (st, rest)
  else (indentCore st level, rest)

/-- `Lexer::scanToken`: dispatch on the first character `c`; `cs` is the
input after `c`.  The C++ "back up, then rescan" for digits and identifier
heads is rendered by calling `scanNumber` / `scanIdentifier` on `c :: cs`. -/
def scanToken (st : LexState) (c : Char) (cs : List Char) :
    LexState × List Char :=
  if c = ' ' ∨ c = '\r' ∨ c = '\t' then (adv1 st c, cs)
  else if c = '\n' then
    handleIndentation (addToken (adv1 st c) .NEWLINE) cs
  else if c = '#' then scanComment (adv1 st c) cs
  else if c = '@' then
    let st := adv1 st c
    if isAlphaCh (cs.headD (Char.ofNat 0)) then
      let word := (spanP isAlphaNumericCh cs).1
      (addToken (advRun st word.length) .ANNOT ("@" ++ String.mk word),
       (spanP isAlphaNumericCh cs).2)
    else (addLexError st "Invalid annotation", cs)
  else if c = '(' then (addToken (adv1 st c) .LEFT_PAREN, cs)
  else if c = ')' then (addToken (adv1 st c) .RIGHT_PAREN, cs)
  else if c = '[' then (addToken (adv1 st c) .LEFT_BRACKET, cs)
  else if c = ']' then (addToken (adv1 st c) .RIGHT_BRACKET, cs)
  else if c = '{' then (addToken (adv1 st c) .LEFT_BRACE, cs)
  else if c = '}' then (addToken (adv1 st c) .RIGHT_BRACE, cs)
  else if c = ',' then (addToken (adv1 st c) .COMMA, cs)
  else if c = '.' then (addToken (adv1 st c) .DOT, cs)
  else if c = ':' then
    if cs.headD (Char.ofNat 0) = '=' then
      (addToken (adv1 (adv1 st c) '=') .TYPE_INFER_ASSIGN, cs.tail)
    else (addToken (adv1 st c) .COLON, cs)
  else if c = ';' then (addToken (adv1 st c) .SEMICOLON, cs)
  else if c = '$' then (addToken (adv1 st c) .DOLLAR, cs)
  else if c = '+' then
    if cs.headD (Char.ofNat 0) = '=' then
      (addToken (adv1 (adv1 st c) '=') .PLUS_ASSIGN, cs.tail)
    else (addToken (adv1 st c) .PLUS, cs)
  else if c = '-' then
    if cs.headD (Char.ofNat 0) = '=' then
      (addToken (adv1 (adv1 st c) '=') .MINUS_ASSIGN, cs.tail)
    else if cs.headD (Char.ofNat 0) = '>' then
      (addToken (adv1 (adv1 st c) '>') .ARROW, cs.tail)
    else (addToken (adv1 st c) .MINUS, cs)
  else if c = '*' then
    if cs.headD (Char.ofNat 0) = '=' then
      (addToken (adv1 (adv1 st c) '=') .MULTIPLY_ASSIGN, cs.tail)
    else (addToken (adv1 st c) .MULTIPLY, cs)
  else if c = '/' then
    if cs.headD (Char.ofNat 0) = '=' then
      (addToken (adv1 (adv1 st c) '=') .DIVIDE_ASSIGN, cs.tail)
    else (addToken (adv1 st c) .DIVIDE, cs)
  else if c = '%' then
    if cs.headD (Char.ofNat 0) = '=' then
      (addToken (adv1 (adv1 st c) '=') .MODULO_ASSIGN, cs.tail)
    else (addToken (adv1 st c) .MODULO, cs)
  else if c = '=' then
    if cs.headD (Char.ofNat 0) = '=' then
      (addToken (adv1 (adv1 st c) '=') .EQUAL, cs.tail)
    else (addToken (adv1 st c) .ASSIGN, cs)
  else if c = '!' then
    if cs.headD (Char.ofNat 0) = '=' then
      (addToken (adv1 (adv1 st c) '=') .NOT_EQUAL, cs.tail)
    else (addToken (adv1 st c) .LOGICAL_NOT, cs)
  else if c = '<' then
    if cs.headD (Char.ofNat 0) = '=' then
      (addToken (adv1 (adv1 st c) '=') .LESS_EQUAL, cs.tail)
    else if cs.headD (Char.ofNat 0) = '<' then
      (addToken (adv1 (adv1 st c) '<') .LEFT_SHIFT, cs.tail)
    else (addToken (adv1 st c) .LESS, cs)
  else if c = '>' then
    if cs.headD (Char.ofNat 0) = '=' then
      (addToken (adv1 (adv1 st c) '=') .GREATER_EQUAL, cs.tail)
    else if cs.headD (Char.ofNat 0) = '>' then
      (addToken (adv1 (adv1 st c) '>') .RIGHT_SHIFT, cs.tail)
    else (addToken (adv1 st c) .GREATER, cs)
  else if c = '&' then
    if cs.headD (Char.ofNat 0) = '&' then
      (addToken (adv1 (adv1 st c) '&') .LOGICAL_AND, cs.tail)
    else (addToken (adv1 st c) .BITWISE_AND, cs)
  else if c = '|' then
    if cs.headD (Char.ofNat 0) = '|' then
      (addToken (adv1 (adv1 st c) '|') .LOGICAL_OR, cs.tail)
    else (addToken (adv1 st c) .BITWISE_OR, cs)
  else if c = '^' then (addToken (adv1 st c) .BITWISE_XOR, cs)
  else if c = '~' then (addToken (adv1 st c) .BITWISE_NOT, cs)
  else if c = '"' ∨ c = '\'' then scanString (adv1 st c) c cs
  else if isDigitCh c then scanNumber st (c :: cs)
  else if isAlphaCh c then scanIdentifier st (c :: cs)
  else (addLexError (adv1 st c) ("Unexpected character: " ++ String.mk [c]),
        cs)

theorem spanP_snd_length (p : Char → Bool) (cs : List Char) :
    (spanP p cs).2.length ≤ cs.length := by
  induction cs with
  | nil => simp [spanP]
  | cons c cs ih =>
      simp only [spanP]
      split
      · simpa using Nat.le_succ_of_le ih
      · simp

theorem scanFracPart_length (r : List Char) :
    (scanFracPart r).2.2.length ≤ r.length := by
  unfold scanFracPart
  split
  · split
    · simpa using Nat.le_succ_of_le (spanP_snd_length _ _)
    · simp
  · simp

theorem tail_length_le {α : Type} (l : List α) : l.tail.length ≤ l.length := by
  cases l <;> simp

theorem scanExpPart_length (r : List Char) :
    (scanExpPart r).2.2.length ≤ r.length := by
  unfold scanExpPart
  split
  · refine le_trans (spanP_snd_length _ _) ?_
    split
    · exact le_trans (tail_length_le _) (tail_length_le _)
    · exact tail_length_le _
  · simp

theorem scanNumber_length (st : LexState) (cs : List Char) :
    ((scanNumber st cs).2).length ≤ cs.length := by
  unfold scanNumber
  exact le_trans (le_trans (scanExpPart_length _)
    (scanFracPart_length _)) (spanP_snd_length _ _)

theorem scanNumber_cons_length (st : LexState) (c : Char) (cs : List Char)
    (h : isDigitCh c = true) :
    ((scanNumber st (c :: cs)).2).length ≤ cs.length := by
  unfold scanNumber
  have h1 : (spanP isDigitCh (c :: cs)).2.length ≤ cs.length := by
    simp only [spanP, h, if_true]
    exact spanP_snd_length _ _
  exact le_trans (le_trans (scanExpPart_length _) (scanFracPart_length _)) h1

theorem scanIdentifier_cons_length (st : LexState) (c : Char)
    (cs : List Char) (h : isAlphaCh c = true) :
    ((scanIdentifier st (c :: cs)).2).length ≤ cs.length := by
  unfold scanIdentifier
  simp only [spanP, isAlphaNumericCh, h, Bool.true_or, if_true]
  exact spanP_snd_length _ _

theorem scanComment_length (st : LexState) (cs : List Char) :
    ((scanComment st cs).2).length ≤ cs.length := by
  unfold scanComment
  exact spanP_snd_length _ _

theorem scanStringLoop_length_aux (quote : Char) (n : Nat) :
    ∀ (cs : List Char), cs.length ≤ n → ∀ (st : LexState)
      (value : List Char),
      ((scanStringLoop quote st value cs).2).length ≤ cs.length := by
  induction n with
  | zero =>
      intro cs hcs st value
      have hnil : cs = [] := List.length_eq_zero.mp (Nat.le_zero.mp hcs)
      subst hnil
      simp [scanStringLoop]
  | succ n ih =>
      intro cs hcs st value
      match cs with
      | [] => simp [scanStringLoop]
      | c :: rest =>
        simp only [scanStringLoop]
        by_cases hq : c = quote
        · simp [hq]
        · simp only [hq, if_false]
          by_cases hb : c = '\\'
          · subst hb
            simp only [if_true]
            match rest with
            | [] => simp [scanStringLoop]
            | e :: rest2 =>
                have h2 := ih rest2
                  (by simp at hcs ⊢; omega)
                  (adv1 (adv1 (if ('\\' : Char) = '\n' then
                    { st with line := st.line + 1, column := 1 } else st)
                    '\\') e) (value ++ [escapeChar e])
                simp only [List.length_cons]
                omega
          · simp only [hb, if_false]
            have h2 := ih rest (by simp at hcs ⊢; omega)
              (adv1 (if c = '\n' then
                { st with line := st.line + 1, column := 1 } else st) c)
              (value ++ [c])
            simp only [List.length_cons]
            omega

theorem scanStringLoop_length (quote : Char) (st : LexState)
    (value cs : List Char) :
    ((scanStringLoop quote st value cs).2).length ≤ cs.length :=
  scanStringLoop_length_aux quote cs.length cs (le_refl _) st value

theorem indentSpan_length (cs : List Char) :
    (indentSpan cs).2.2.length ≤ cs.length := by
  induction cs with
  | nil => simp [indentSpan]
  | cons c cs ih =>
      simp only [indentSpan]
      split
      · simpa using Nat.le_succ_of_le ih
      · split
        · simpa using Nat.le_succ_of_le ih
        · simp

theorem scanString_length (st : LexState) (quote : Char) (cs : List Char) :
    ((scanString st quote cs).2).length ≤ cs.length :=
  scanStringLoop_length quote st [] cs

theorem handleIndentation_length (st : LexState) (cs : List Char) :
    ((handleIndentation st cs).2).length ≤ cs.length := by
  unfold handleIndentation
  have h := indentSpan_length cs
  dsimp only
  split <;> exact h

theorem scanToken_length (st : LexState) (c : Char) (cs : List Char) :
    ((scanToken st c cs).2).length ≤ cs.length := by
  unfold scanToken
  by_cases h1 : c = ' ' ∨ c = '\r' ∨ c = '\t'
  · simp only [if_pos h1]
    repeat
      first
        | exact le_refl _
        | exact tail_length_le _
        | exact spanP_snd_length _ _
        | exact handleIndentation_length _ _
        | exact scanComment_length _ _
        | exact scanString_length _ _ _
        | split
        | dsimp only
  simp only [if_neg h1]
  by_cases h2 : c = '\n'
  · simp only [if_pos h2]
    repeat
      first
        | exact le_refl _
        | exact tail_length_le _
        | exact spanP_snd_length _ _
        | exact handleIndentation_length _ _
        | exact scanComment_length _ _
        | exact scanString_length _ _ _
        | split
        | dsimp only
  simp only [if_neg h2]
  by_cases h3 : c = '#'
  · simp only [if_pos h3]
    repeat
      first
        | exact le_refl _
        | exact tail_length_le _
        | exact spanP_snd_length _ _
        | exact handleIndentation_length _ _
        | exact scanComment_length _ _
        | exact scanString_length _ _ _
        | split
        | dsimp only
  simp only [if_neg h3]
  by_cases h4 : c = '@'
  · simp only [if_pos h4]
    repeat
      first
        | exact le_refl _
        | exact tail_length_le _
        | exact spanP_snd_length _ _
        | exact handleIndentation_length _ _
        | exact scanComment_length _ _
        | exact scanString_length _ _ _
        | split
        | dsimp only
  simp only [if_neg h4]
  by_cases h5 : c = '('
  · simp only [if_pos h5]
    repeat
      first
        | exact le_refl _
        | exact tail_length_le _
        | exact spanP_snd_length _ _
        | exact handleIndentation_length _ _
        | exact scanComment_length _ _
        | exact scanString_length _ _ _
        | split
        | dsimp only
  simp only [if_neg h5]
  by_cases h6 : c = ')'
  · simp only [if_pos h6]
    repeat
      first
        | exact le_refl _
        | exact tail_length_le _
        | exact spanP_snd_length _ _
        | exact handleIndentation_length _ _
        | exact scanComment_length _ _
        | exact scanString_length _ _ _
        | split
        | dsimp only
  simp only [if_neg h6]
  by_cases h7 : c = '['
  · simp only [if_pos h7]
    repeat
      first
        | exact le_refl _
        | exact tail_length_le _
        | exact spanP_snd_length _ _
        | exact handleIndentation_length _ _
        | exact scanComment_length _ _
        | exact scanString_length _ _ _
        | split
        | dsimp only
  simp only [if_neg h7]
  by_cases h8 : c = ']'
  · simp only [if_pos h8]
    repeat
      first
        | exact le_refl _
        | exact tail_length_le _
        | exact spanP_snd_length _ _
        | exact handleIndentation_length _ _
        | exact scanComment_length _ _
        | exact scanString_length _ _ _
        | split
        | dsimp only
  simp only [if_neg h8]
  by_cases h9 : c = '{'
  · simp only [if_pos h9]
    repeat
      first
        | exact le_refl _
        | exact tail_length_le _
        | exact spanP_snd_length _ _
        | exact handleIndentation_length _ _
        | exact scanComment_length _ _
        | exact scanString_length _ _ _
        | split
        | dsimp only
  simp only [if_neg h9]
  by_cases h10 : c = '}'
  · simp only [if_pos h10]
    repeat
      first
        | exact le_refl _
        | exact tail_length_le _
        | exact spanP_snd_length _ _
        | exact handleIndentation_length _ _
        | exact scanComment_length _ _
        | exact scanString_length _ _ _
        | split
        | dsimp only
  simp only [if_neg h10]
  by_cases h11 : c = ','
  · simp only [if_pos h11]
    repeat
      first
        | exact le_refl _
        | exact tail_length_le _
        | exact spanP_snd_length _ _
        | exact handleIndentation_length _ _
        | exact scanComment_length _ _
        | exact scanString_length _ _ _
        | split
        | dsimp only
  simp only [if_neg h11]
  by_cases h12 : c = '.'
  · simp only [if_pos h12]
    repeat
      first
        | exact le_refl _
        | exact tail_length_le _
        | exact spanP_snd_length _ _
        | exact handleIndentation_length _ _
        | exact scanComment_length _ _
        | exact scanString_length _ _ _
        | split
        | dsimp only
  simp only [if_neg h12]
  by_cases h13 : c = ':'
  · simp only [if_pos h13]
    repeat
      first
        | exact le_refl _
        | exact tail_length_le _
        | exact spanP_snd_length _ _
        | exact handleIndentation_length _ _
        | exact scanComment_length _ _
        | exact scanString_length _ _ _
        | split
        | dsimp only
  simp only [if_neg h13]
  by_cases h14 : c = ';'
  · simp only [if_pos h14]
    repeat
      first
        | exact le_refl _
        | exact tail_length_le _
        | exact spanP_snd_length _ _
        | exact handleIndentation_length _ _
        | exact scanComment_length _ _
        | exact scanString_length _ _ _
        | split
        | dsimp only
  simp only [if_neg h14]
  by_cases h15 : c = '$'
  · simp only [if_pos h15]
    repeat
      first
        | exact le_refl _
        | exact tail_length_le _
        | exact spanP_snd_length _ _
        | exact handleIndentation_length _ _
        | exact scanComment_length _ _
        | exact scanString_length _ _ _
        | split
        | dsimp only
  simp only [if_neg h15]
  by_cases h16 : c = '+'
  · simp only [if_pos h16]
    repeat
      first
        | exact le_refl _
        | exact tail_length_le _
        | exact spanP_snd_length _ _
        | exact handleIndentation_length _ _
        | exact scanComment_length _ _
        | exact scanString_length _ _ _
        | split
        | dsimp only
  simp only [if_neg h16]
  by_cases h17 : c = '-'
  · simp only [if_pos h17]
    repeat
      first
        | exact le_refl _
        | exact tail_length_le _
        | exact spanP_snd_length _ _
        | exact handleIndentation_length _ _
        | exact scanComment_length _ _
        | exact scanString_length _ _ _
        | split
        | dsimp only
  simp only [if_neg h17]
  by_cases h18 : c = '*'
  · simp only [if_pos h18]
    repeat
      first
        | exact le_refl _
        | exact tail_length_le _
        | exact spanP_snd_length _ _
        | exact handleIndentation_length _ _
        | exact scanComment_length _ _
        | exact scanString_length _ _ _
        | split
        | dsimp only
  simp only [if_neg h18]
  by_cases h19 : c = '/'
  · simp only [if_pos h19]
    repeat
      first
        | exact le_refl _
        | exact tail_length_le _
        | exact spanP_snd_length _ _
        | exact handleIndentation_length _ _
        | exact scanComment_length _ _
        | exact scanString_length _ _ _
        | split
        | dsimp only
  simp only [if_neg h19]
  by_cases h20 : c = '%'
  · simp only [if_pos h20]
    repeat
      first
        | exact le_refl _
        | exact tail_length_le _
        | exact spanP_snd_length _ _
        | exact handleIndentation_length _ _
        | exact scanComment_length _ _
        | exact scanString_length _ _ _
        | split
        | dsimp only
  simp only [if_neg h20]
  by_cases h21 : c = '='
  · simp only [if_pos h21]
    repeat
      first
        | exact le_refl _
        | exact tail_length_le _
        | exact spanP_snd_length _ _
        | exact handleIndentation_length _ _
        | exact scanComment_length _ _
        | exact scanString_length _ _ _
        | split
        | dsimp only
  simp only [if_neg h21]
  by_cases h22 : c = '!'
  · simp only [if_pos h22]
    repeat
      first
        | exact le_refl _
        | exact tail_length_le _
        | exact spanP_snd_length _ _
        | exact handleIndentation_length _ _
        | exact scanComment_length _ _
        | exact scanString_length _ _ _
        | split
        | dsimp only
  simp only [if_neg h22]
  by_cases h23 : c = '<'
  · simp only [if_pos h23]
    repeat
      first
        | exact le_refl _
        | exact tail_length_le _
        | exact spanP_snd_length _ _
        | exact handleIndentation_length _ _
        | exact scanComment_length _ _
        | exact scanString_length _ _ _
        | split
        | dsimp only
  simp only [if_neg h23]
  by_cases h24 : c = '>'
  · simp only [if_pos h24]
    repeat
      first
        | exact le_refl _
        | exact tail_length_le _
        | exact spanP_snd_length _ _
        | exact handleIndentation_length _ _
        | exact scanComment_length _ _
        | exact scanString_length _ _ _
        | split
        | dsimp only
  simp only [if_neg h24]
  by_cases h25 : c = '&'
  · simp only [if_pos h25]
    repeat
      first
        | exact le_refl _
        | exact tail_length_le _
        | exact spanP_snd_length _ _
        | exact handleIndentation_length _ _
        | exact scanComment_length _ _
        | exact scanString_length _ _ _
        | split
        | dsimp only
  simp only [if_neg h25]
  by_cases h26 : c = '|'
  · simp only [if_pos h26]
    repeat
      first
        | exact le_refl _
        | exact tail_length_le _
        | exact spanP_snd_length _ _
        | exact handleIndentation_length _ _
        | exact scanComment_length _ _
        | exact scanString_length _ _ _
        | split
        | dsimp only
  simp only [if_neg h26]
  by_cases h27 : c = '^'
  · simp only [if_pos h27]
    repeat
      first
        | exact le_refl _
        | exact tail_length_le _
        | exact spanP_snd_length _ _
        | exact handleIndentation_length _ _
        | exact scanComment_length _ _
        | exact scanString_length _ _ _
        | split
        | dsimp only
  simp only [if_neg h27]
  by_cases h28 : c = '~'
  · simp only [if_pos h28]
    repeat
      first
        | exact le_refl _
        | exact tail_length_le _
        | exact spanP_snd_length _ _
        | exact handleIndentation_length _ _
        | exact scanComment_length _ _
        | exact scanString_length _ _ _
        | split
        | dsimp only
  simp only [if_neg h28]
  by_cases h29 : c = '"' ∨ c = '\''
  · simp only [if_pos h29]
    repeat
      first
        | exact le_refl _
        | exact tail_length_le _
        | exact spanP_snd_length _ _
        | exact handleIndentation_length _ _
        | exact scanComment_length _ _
        | exact scanString_length _ _ _
        | split
        | dsimp only
  simp only [if_neg h29]
  by_cases h30 : isDigitCh c = true
  · simp only [if_pos h30]
    exact scanNumber_cons_length st c cs h30
  simp only [if_neg h30]
  by_cases h31 : isAlphaCh c = true
  · simp only [if_pos h31]
    exact scanIdentifier_cons_length st c cs h31
  simp only [if_neg h31]
  exact le_refl _

/-- The scanning loop of `Lexer::tokenize`
(`while (!isAtEnd()) scanToken()`), with an explicit step counter so that it
is structurally recursive.  Every `scanToken` consumes at least one
character (`scanToken_length`), so `cs.length` steps always suffice; the
counter never runs out (`tokenizeLoopF_fuel`). -/
def tokenizeLoopF : Nat → LexState → List Char → LexState
  | _, st, [] => st
  | 0, st, _ :: _ => st
  | n + 1, st, c :: rest =>
      tokenizeLoopF n (scanToken st c rest).1 (scanToken st c rest).2

/-- `Lexer::tokenize` scanning loop. -/
def tokenizeLoop (st : LexState) (cs : List Char) : LexState :=
  tokenizeLoopF cs.length st cs

/-- The step counter is irrelevant as long as it is at least the number of
remaining characters: the loop always ends by exhausting the input. -/
theorem tokenizeLoopF_fuel :
    ∀ (n m : Nat) (st : LexState) (cs : List Char), cs.length ≤ n → n ≤ m →
      tokenizeLoopF n st cs = tokenizeLoopF m st cs := by
  intro n
  induction n with
  | zero =>
      intro m st cs hlen _
      have hnil : cs = [] := List.length_eq_zero.mp (Nat.le_zero.mp hlen)
      subst hnil
      cases m <;> simp [tokenizeLoopF]
  | succ n ih =>
      intro m st cs hlen hm
      match cs with
      | [] => cases m <;> simp [tokenizeLoopF]
      | c :: rest =>
          match m, hm with
          | m + 1, hm =>
              simp only [tokenizeLoopF]
              have h1 := scanToken_length st c rest
              refine ih m _ _ ?_ (by omega)
              simp at hlen
              omega

/-- The final-dedent loop of `Lexer::tokenize`:
`while (indent_stack.size() > 1) pop and emit DEDENT`. -/
def finalDedentsAux (line column : Nat) :
    List Nat → List Token → List Nat × List Token
  | [], tokens => ([], tokens)
  | [lvl], tokens => ([lvl], tokens)
  | _ :: b :: rest, tokens =>
      finalDedentsAux line column (b :: rest)
        (tokens ++ [⟨.DEDENT, "", line, column⟩])

/-- `Lexer::tokenize` returning the whole final lexer state. -/
def tokenizeSt (cs : List Char) : LexState :=
  let st := tokenizeLoop initLexState cs
  -- add a final newline if the file does not end with one
  let st :=
    match st.tokens.getLast? with
    | some t => if t.type ≠ .NEWLINE then addToken st .NEWLINE else st
    | none => st
  -- add final dedents
  let stk := (finalDedentsAux st.line st.column st.indentStack st.tokens).1
  let toks := (finalDedentsAux st.line st.column st.indentStack st.tokens).2
  let st := { st with indentStack := stk, tokens := toks }
  addToken st .EOF_TOKEN

/-- `Lexer::tokenize` (the returned token vector). -/
def tokenize (cs : List Char) : List Token :=
  (tokenizeSt cs).tokens

/-- `tokenize` applied to a Lean string. -/
def tokenizeStr (s : String) : List Token :=
  tokenize s.data

/-! ### Lexer invariants -/

/-- Number of tokens of a given kind in a token list. -/
def countType (tt : TokenType) (ts : List Token) : Nat :=
  (ts.filter (fun t => t.type == tt)).length

theorem countType_append (tt : TokenType) (a b : List Token) :
    countType tt (a ++ b) = countType tt a + countType tt b := by
  simp [countType, List.filter_append]

/-- A state transition that leaves the indent stack and the INDENT / DEDENT
token counts unchanged. -/
def Neutral (st st2 : LexState) : Prop :=
  st2.indentStack = st.indentStack ∧
  countType .INDENT st2.tokens = countType .INDENT st.tokens ∧
  countType .DEDENT st2.tokens = countType .DEDENT st.tokens

theorem Neutral.refl (st : LexState) : Neutral st st := ⟨rfl, rfl, rfl⟩

theorem Neutral.trans {a b c : LexState} (h1 : Neutral a b)
    (h2 : Neutral b c) : Neutral a c := by
  obtain ⟨s1, i1, d1⟩ := h1
  obtain ⟨s2, i2, d2⟩ := h2
  exact ⟨s2.trans s1, i2.trans i1, d2.trans d1⟩

theorem neutral_adv1 (st : LexState) (c : Char) : Neutral st (adv1 st c) := by
  unfold adv1 Neutral
  split <;> simp

theorem neutral_advRun (st : LexState) (n : Nat) :
    Neutral st (advRun st n) := ⟨rfl, rfl, rfl⟩

theorem neutral_addLexError (st : LexState) (m : String) :
    Neutral st (addLexError st m) := ⟨rfl, rfl, rfl⟩

theorem neutral_addToken (st : LexState) (tt : TokenType) (v : String)
    (hi : tt ≠ .INDENT) (hd : tt ≠ .DEDENT) :
    Neutral st (addToken st tt v) := by
  refine ⟨rfl, ?_, ?_⟩ <;>
    simp [addToken, countType_append, countType, hi, hd]

theorem mapFind_mem {β : Type} (m : List (String × β)) (k : String)
    (v : β) (h : mapFind m k = some v) : (k, v) ∈ m := by
  induction m with
  | nil => simp [mapFind] at h
  | cons p rest ih =>
      obtain ⟨k0, v0⟩ := p
      simp only [mapFind] at h
      split at h
      · next hk =>
          obtain ⟨rfl⟩ := h
          subst hk
          exact List.mem_cons_self _ _
      · exact List.mem_cons_of_mem _ (ih h)

theorem keywords_ne_indent (s : String) :
    (keywords s).getD .IDENTIFIER ≠ .INDENT ∧
    (keywords s).getD .IDENTIFIER ≠ .DEDENT := by
  unfold keywords
  cases hk : mapFind keywordTable s with
  | none => simp
  | some tt =>
      have hmem := mapFind_mem _ _ _ hk
      have : ∀ p ∈ keywordTable, p.2 ≠ TokenType.INDENT ∧
          p.2 ≠ TokenType.DEDENT := by decide
      simpa using this _ hmem

theorem neutral_scanIdentifier (st : LexState) (cs : List Char) :
    Neutral st (scanIdentifier st cs).1 := by
  unfold scanIdentifier
  have h := keywords_ne_indent (String.mk (spanP isAlphaNumericCh cs).1)
  exact (neutral_advRun st _).trans (neutral_addToken _ _ _ h.1 h.2)

theorem neutral_scanNumber (st : LexState) (cs : List Char) :
    Neutral st (scanNumber st cs).1 := by
  unfold scanNumber
  refine (neutral_advRun st _).trans (neutral_addToken _ _ _ ?_ ?_) <;>
    split <;> simp

theorem neutral_scanComment (st : LexState) (cs : List Char) :
    Neutral st (scanComment st cs).1 :=
  neutral_advRun st _

theorem neutral_scanStringLoop_aux (quote : Char) (n : Nat) :
    ∀ (cs : List Char), cs.length ≤ n → ∀ (st : LexState)
      (value : List Char),
      Neutral st (scanStringLoop quote st value cs).1 := by
  induction n with
  | zero =>
      intro cs hcs st value
      have hnil : cs = [] := List.length_eq_zero.mp (Nat.le_zero.mp hcs)
      subst hnil
      simp only [scanStringLoop]
      exact neutral_addLexError _ _
  | succ n ih =>
      intro cs hcs st value
      match cs with
      | [] =>
          simp only [scanStringLoop]
          exact neutral_addLexError _ _
      | c :: rest =>
        simp only [scanStringLoop]
        by_cases hq : c = quote
        · simp only [hq, if_true]
          exact (neutral_adv1 _ _).trans
            (neutral_addToken _ _ _ (by simp) (by simp))
        · simp only [hq, if_false]
          by_cases hb : c = '\\'
          · subst hb
            simp only [if_true]
            match rest with
            | [] =>
                refine Neutral.trans ?_ (neutral_addLexError _ _)
                exact Neutral.trans (by unfold Neutral; split <;> simp)
                  (neutral_adv1 _ _)
            | e :: rest2 =>
                refine Neutral.trans ?_ (ih rest2 (by simp at hcs ⊢; omega) _ _)
                refine Neutral.trans ?_ (neutral_adv1 _ _)
                exact Neutral.trans (by unfold Neutral; split <;> simp)
                  (neutral_adv1 _ _)
          · simp only [hb, if_false]
            refine Neutral.trans ?_ (ih rest (by simp at hcs ⊢; omega) _ _)
            exact Neutral.trans (by unfold Neutral; split <;> simp)
              (neutral_adv1 _ _)

theorem neutral_scanString (st : LexState) (quote : Char) (cs : List Char) :
    Neutral st (scanString st quote cs).1 :=
  neutral_scanStringLoop_aux quote cs.length cs (le_refl _) st []

/-- The lexer invariant behind testable property 2 of the spec: the indent
stack ends in the initial level 0, and the INDENT / DEDENT token counts
balance against the current stack height. -/
def LexInv (st : LexState) : Prop :=
  (∃ pre, st.indentStack = pre ++ [0]) ∧
  countType .INDENT st.tokens + 1 =
    countType .DEDENT st.tokens + st.indentStack.length

theorem lexInv_of_neutral {st st2 : LexState} (h : Neutral st st2)
    (hi : LexInv st) : LexInv st2 := by
  obtain ⟨hs, hti, htd⟩ := h
  obtain ⟨⟨pre, hpre⟩, hcount⟩ := hi
  exact ⟨⟨pre, hs ▸ hpre⟩, by rw [hti, htd, hs]; exact hcount⟩

theorem popDedents_spec (line column level : Nat) :
    ∀ (stack : List Nat) (toks : List Token),
      (popDedents line column level stack toks).1.length +
          countType .DEDENT (popDedents line column level stack toks).2 =
        stack.length + countType .DEDENT toks ∧
      countType .INDENT (popDedents line column level stack toks).2 =
        countType .INDENT toks ∧
      (∀ pre, stack = pre ++ [0] →
        ∃ pre2, (popDedents line column level stack toks).1 = pre2 ++ [0]) := by
  intro stack
  induction stack with
  | nil =>
      intro toks
      refine ⟨by simp [popDedents], by simp [popDedents], ?_⟩
      intro pre hpre
      exact absurd hpre (by simp)
  | cons top rest ih =>
      intro toks
      by_cases hlt : level < top
      · have hrec := ih (toks ++ [⟨.DEDENT, "", line, column⟩])
        refine ⟨?_, ?_, ?_⟩
        · have h1 := hrec.1
          simp only [popDedents, hlt, if_true]
          rw [h1]
          simp [countType_append, countType]
          omega
        · have h2 := hrec.2.1
          simp only [popDedents, hlt, if_true]
          rw [h2]
          simp [countType_append, countType]
        · intro pre hpre
          match pre, hpre with
          | [], hpre =>
              -- then top = 0, contradicting level < top
              simp at hpre
              omega
          | p :: pre2, hpre =>
              simp at hpre
              obtain ⟨hp, hrest⟩ := hpre
              simp only [popDedents, hlt, if_true]
              exact hrec.2.2 pre2 hrest
      · refine ⟨by simp [popDedents, hlt], by simp [popDedents, hlt], ?_⟩
        intro pre hpre
        simp only [popDedents, hlt, if_false]
        exact ⟨pre, hpre⟩

theorem lexInv_indentCore {st : LexState} (level : Nat)
    (hi : LexInv st) : LexInv (indentCore st level) := by
  obtain ⟨⟨pre, hpre⟩, hcount⟩ := hi
  unfold indentCore
  by_cases h1 : level > st.indentStack.headD 0
  · rw [if_pos h1]
    refine ⟨⟨level :: pre, by simp [addToken, hpre]⟩, ?_⟩
    simp [addToken, countType_append, countType, hpre] at hcount ⊢
    omega
  · rw [if_neg h1]
    by_cases h2 : level < st.indentStack.headD 0
    · rw [if_pos h2]
      have hspec := popDedents_spec st.line st.column level st.indentStack
        st.tokens
      obtain ⟨pre2, hpre2⟩ := hspec.2.2 pre hpre
      have hlen := hspec.1
      have hind := hspec.2.1
      rw [hpre2] at hlen
      dsimp only
      split
      · refine ⟨⟨pre2, by simp [addLexError, hpre2]⟩, ?_⟩
        dsimp only [addLexError]
        rw [hind, hpre2]
        omega
      · refine ⟨⟨pre2, by simp [hpre2]⟩, ?_⟩
        dsimp only
        rw [hind, hpre2]
        omega
    · rw [if_neg h2]
      exact ⟨⟨pre, hpre⟩, hcount⟩

theorem lexInv_handleIndentation {st : LexState} (cs : List Char)
    (hi : LexInv st) : LexInv (handleIndentation st cs).1 := by
  unfold handleIndentation
  dsimp only
  split
  · exact lexInv_of_neutral (neutral_advRun _ _) hi
  · exact lexInv_indentCore _ (lexInv_of_neutral (neutral_advRun _ _) hi)

theorem lexInv_scanToken (st : LexState) (c : Char) (cs : List Char)
    (hi : LexInv st) : LexInv (scanToken st c cs).1 := by
  unfold scanToken
  by_cases h1 : c = ' ' ∨ c = '\r' ∨ c = '\t'
  · simp only [if_pos h1]
    exact lexInv_of_neutral (neutral_adv1 _ _) hi
  simp only [if_neg h1]
  by_cases h2 : c = '\n'
  · simp only [if_pos h2]
    exact lexInv_handleIndentation _ (lexInv_of_neutral
      ((neutral_adv1 _ _).trans (neutral_addToken _ _ _ (by decide)
        (by decide))) hi)
  simp only [if_neg h2]
  by_cases h3 : c = '#'
  · simp only [if_pos h3]
    exact lexInv_of_neutral ((neutral_adv1 _ _).trans
      (neutral_scanComment _ _)) hi
  simp only [if_neg h3]
  by_cases h4 : c = '@'
  · simp only [if_pos h4]
    repeat
      first
        | exact lexInv_of_neutral ((neutral_adv1 _ _).trans
            ((neutral_advRun _ _).trans
              (neutral_addToken _ _ _ (by decide) (by decide)))) hi
        | exact lexInv_of_neutral ((neutral_adv1 _ _).trans
            (neutral_addLexError _ _)) hi
        | split
        | dsimp only
  simp only [if_neg h4]
  by_cases h5 : c = '('
  · simp only [if_pos h5]
    exact lexInv_of_neutral ((neutral_adv1 _ _).trans (neutral_addToken _ _ _ (by decide) (by decide))) hi
  simp only [if_neg h5]
  by_cases h6 : c = ')'
  · simp only [if_pos h6]
    exact lexInv_of_neutral ((neutral_adv1 _ _).trans (neutral_addToken _ _ _ (by decide) (by decide))) hi
  simp only [if_neg h6]
  by_cases h7 : c = '['
  · simp only [if_pos h7]
    exact lexInv_of_neutral ((neutral_adv1 _ _).trans (neutral_addToken _ _ _ (by decide) (by decide))) hi
  simp only [if_neg h7]
  by_cases h8 : c = ']'
  · simp only [if_pos h8]
    exact lexInv_of_neutral ((neutral_adv1 _ _).trans (neutral_addToken _ _ _ (by decide) (by decide))) hi
  simp only [if_neg h8]
  by_cases h9 : c = '{'
  · simp only [if_pos h9]
    exact lexInv_of_neutral ((neutral_adv1 _ _).trans (neutral_addToken _ _ _ (by decide) (by decide))) hi
  simp only [if_neg h9]
  by_cases h10 : c = '}'
  · simp only [if_pos h10]
    exact lexInv_of_neutral ((neutral_adv1 _ _).trans (neutral_addToken _ _ _ (by decide) (by decide))) hi
  simp only [if_neg h10]
  by_cases h11 : c = ','
  · simp only [if_pos h11]
    exact lexInv_of_neutral ((neutral_adv1 _ _).trans (neutral_addToken _ _ _ (by decide) (by decide))) hi
  simp only [if_neg h11]
  by_cases h12 : c = '.'
  · simp only [if_pos h12]
    exact lexInv_of_neutral ((neutral_adv1 _ _).trans (neutral_addToken _ _ _ (by decide) (by decide))) hi
  simp only [if_neg h12]
  by_cases h13 : c = ':'
  · simp only [if_pos h13]
    repeat
      first
        | exact lexInv_of_neutral ((neutral_adv1 _ _).trans
            (neutral_addToken _ _ _ (by decide) (by decide))) hi
        | exact lexInv_of_neutral (((neutral_adv1 _ _).trans
            (neutral_adv1 _ _)).trans
            (neutral_addToken _ _ _ (by decide) (by decide))) hi
        | split
        | dsimp only
  simp only [if_neg h13]
  by_cases h14 : c = ';'
  · simp only [if_pos h14]
    exact lexInv_of_neutral ((neutral_adv1 _ _).trans (neutral_addToken _ _ _ (by decide) (by decide))) hi
  simp only [if_neg h14]
  by_cases h15 : c = '$'
  · simp only [if_pos h15]
    exact lexInv_of_neutral ((neutral_adv1 _ _).trans (neutral_addToken _ _ _ (by decide) (by decide))) hi
  simp only [if_neg h15]
  by_cases h16 : c = '+'
  · simp only [if_pos h16]
    repeat
      first
        | exact lexInv_of_neutral ((neutral_adv1 _ _).trans
            (neutral_addToken _ _ _ (by decide) (by decide))) hi
        | exact lexInv_of_neutral (((neutral_adv1 _ _).trans
            (neutral_adv1 _ _)).trans
            (neutral_addToken _ _ _ (by decide) (by decide))) hi
        | split
        | dsimp only
  simp only [if_neg h16]
  by_cases h17 : c = '-'
  · simp only [if_pos h17]
    repeat
      first
        | exact lexInv_of_neutral ((neutral_adv1 _ _).trans
            (neutral_addToken _ _ _ (by decide) (by decide))) hi
        | exact lexInv_of_neutral (((neutral_adv1 _ _).trans
            (neutral_adv1 _ _)).trans
            (neutral_addToken _ _ _ (by decide) (by decide))) hi
        | split
        | dsimp only
  simp only [if_neg h17]
  by_cases h18 : c = '*'
  · simp only [if_pos h18]
    repeat
      first
        | exact lexInv_of_neutral ((neutral_adv1 _ _).trans
            (neutral_addToken _ _ _ (by decide) (by decide))) hi
        | exact lexInv_of_neutral (((neutral_adv1 _ _).trans
            (neutral_adv1 _ _)).trans
            (neutral_addToken _ _ _ (by decide) (by decide))) hi
        | split
        | dsimp only
  simp only [if_neg h18]
  by_cases h19 : c = '/'
  · simp only [if_pos h19]
    repeat
      first
        | exact lexInv_of_neutral ((neutral_adv1 _ _).trans
            (neutral_addToken _ _ _ (by decide) (by decide))) hi
        | exact lexInv_of_neutral (((neutral_adv1 _ _).trans
            (neutral_adv1 _ _)).trans
            (neutral_addToken _ _ _ (by decide) (by decide))) hi
        | split
        | dsimp only
  simp only [if_neg h19]
  by_cases h20 : c = '%'
  · simp only [if_pos h20]
    repeat
      first
        | exact lexInv_of_neutral ((neutral_adv1 _ _).trans
            (neutral_addToken _ _ _ (by decide) (by decide))) hi
        | exact lexInv_of_neutral (((neutral_adv1 _ _).trans
            (neutral_adv1 _ _)).trans
            (neutral_addToken _ _ _ (by decide) (by decide))) hi
        | split
        | dsimp only
  simp only [if_neg h20]
  by_cases h21 : c = '='
  · simp only [if_pos h21]
    repeat
      first
        | exact lexInv_of_neutral ((neutral_adv1 _ _).trans
            (neutral_addToken _ _ _ (by decide) (by decide))) hi
        | exact lexInv_of_neutral (((neutral_adv1 _ _).trans
            (neutral_adv1 _ _)).trans
            (neutral_addToken _ _ _ (by decide) (by decide))) hi
        | split
        | dsimp only
  simp only [if_neg h21]
  by_cases h22 : c = '!'
  · simp only [if_pos h22]
    repeat
      first
        | exact lexInv_of_neutral ((neutral_adv1 _ _).trans
            (neutral_addToken _ _ _ (by decide) (by decide))) hi
        | exact lexInv_of_neutral (((neutral_adv1 _ _).trans
            (neutral_adv1 _ _)).trans
            (neutral_addToken _ _ _ (by decide) (by decide))) hi
        | split
        | dsimp only
  simp only [if_neg h22]
  by_cases h23 : c = '<'
  · simp only [if_pos h23]
    repeat
      first
        | exact lexInv_of_neutral ((neutral_adv1 _ _).trans
            (neutral_addToken _ _ _ (by decide) (by decide))) hi
        | exact lexInv_of_neutral (((neutral_adv1 _ _).trans
            (neutral_adv1 _ _)).trans
            (neutral_addToken _ _ _ (by decide) (by decide))) hi
        | split
        | dsimp only
  simp only [if_neg h23]
  by_cases h24 : c = '>'
  · simp only [if_pos h24]
    repeat
      first
        | exact lexInv_of_neutral ((neutral_adv1 _ _).trans
            (neutral_addToken _ _ _ (by decide) (by decide))) hi
        | exact lexInv_of_neutral (((neutral_adv1 _ _).trans
            (neutral_adv1 _ _)).trans
            (neutral_addToken _ _ _ (by decide) (by decide))) hi
        | split
        | dsimp only
  simp only [if_neg h24]
  by_cases h25 : c = '&'
  · simp only [if_pos h25]
    repeat
      first
        | exact lexInv_of_neutral ((neutral_adv1 _ _).trans
            (neutral_addToken _ _ _ (by decide) (by decide))) hi
        | exact lexInv_of_neutral (((neutral_adv1 _ _).trans
            (neutral_adv1 _ _)).trans
            (neutral_addToken _ _ _ (by decide) (by decide))) hi
        | split
        | dsimp only
  simp only [if_neg h25]
  by_cases h26 : c = '|'
  · simp only [if_pos h26]
    repeat
      first
        | exact lexInv_of_neutral ((neutral_adv1 _ _).trans
            (neutral_addToken _ _ _ (by decide) (by decide))) hi
        | exact lexInv_of_neutral (((neutral_adv1 _ _).trans
            (neutral_adv1 _ _)).trans
            (neutral_addToken _ _ _ (by decide) (by decide))) hi
        | split
        | dsimp only
  simp only [if_neg h26]
  by_cases h27 : c = '^'
  · simp only [if_pos h27]
    exact lexInv_of_neutral ((neutral_adv1 _ _).trans (neutral_addToken _ _ _ (by decide) (by decide))) hi
  simp only [if_neg h27]
  by_cases h28 : c = '~'
  · simp only [if_pos h28]
    exact lexInv_of_neutral ((neutral_adv1 _ _).trans (neutral_addToken _ _ _ (by decide) (by decide))) hi
  simp only [if_neg h28]
  by_cases h29 : c = '"' ∨ c = '\''
  · simp only [if_pos h29]
    exact lexInv_of_neutral ((neutral_adv1 _ _).trans
      (neutral_scanString _ _ _)) hi
  simp only [if_neg h29]
  by_cases h30 : isDigitCh c = true
  · simp only [if_pos h30]
    exact lexInv_of_neutral (neutral_scanNumber _ _) hi
  simp only [if_neg h30]
  by_cases h31 : isAlphaCh c = true
  · simp only [if_pos h31]
    exact lexInv_of_neutral (neutral_scanIdentifier _ _) hi
  simp only [if_neg h31]
  exact lexInv_of_neutral ((neutral_adv1 _ _).trans
    (neutral_addLexError _ _)) hi

theorem lexInv_tokenizeLoopF (n : Nat) :
    ∀ (cs : List Char) (st : LexState),
      LexInv st → LexInv (tokenizeLoopF n st cs) := by
  induction n with
  | zero =>
      intro cs st hi
      cases cs <;> simpa [tokenizeLoopF] using hi
  | succ n ih =>
      intro cs st hi
      match cs with
      | [] => simpa [tokenizeLoopF] using hi
      | c :: rest =>
          simp only [tokenizeLoopF]
          exact ih _ _ (lexInv_scanToken _ _ _ hi)

theorem lexInv_tokenizeLoop (st : LexState) (cs : List Char)
    (hi : LexInv st) : LexInv (tokenizeLoop st cs) :=
  lexInv_tokenizeLoopF cs.length cs st hi

theorem finalDedentsAux_spec (line column : Nat) :
    ∀ (stack : List Nat) (toks : List Token), stack ≠ [] →
      countType .DEDENT (finalDedentsAux line column stack toks).2 + 1 =
          countType .DEDENT toks + stack.length ∧
      countType .INDENT (finalDedentsAux line column stack toks).2 =
          countType .INDENT toks := by
  intro stack
  induction stack with
  | nil => intro toks h; exact absurd rfl h
  | cons a rest ih =>
      intro toks _
      match rest with
      | [] => simp [finalDedentsAux]
      | b :: rest2 =>
          have hrec := ih (toks ++ [⟨.DEDENT, "", line, column⟩])
            (by simp)
          simp only [finalDedentsAux]
          constructor
          · rw [hrec.1]
            simp [countType_append, countType]
            omega
          · rw [hrec.2]
            simp [countType_append, countType]

/-- The optional synthetic final NEWLINE of `Lexer::tokenize` preserves the
lexer invariant. -/
theorem lexInv_finalNewline (st1 : LexState) (h1 : LexInv st1) :
    LexInv (match st1.tokens.getLast? with
      | some t => if t.type ≠ TokenType.NEWLINE then addToken st1 .NEWLINE
                  else st1
      | none => st1) := by
  rcases st1.tokens.getLast? with _ | t
  · exact h1
  · dsimp only
    split
    · exact lexInv_of_neutral
        (neutral_addToken _ _ _ (by decide) (by decide)) h1
    · exact h1

/-- After emitting the final dedents and the EOF token, the INDENT and
DEDENT counts agree. -/
theorem tokenizeFinal_balance (st2 : LexState) (h2 : LexInv st2) :
    countType .INDENT (addToken { st2 with
        indentStack :=
          (finalDedentsAux st2.line st2.column st2.indentStack st2.tokens).1,
        tokens :=
          (finalDedentsAux st2.line st2.column st2.indentStack st2.tokens).2 }
        .EOF_TOKEN).tokens =
    countType .DEDENT (addToken { st2 with
        indentStack :=
          (finalDedentsAux st2.line st2.column st2.indentStack st2.tokens).1,
        tokens :=
          (finalDedentsAux st2.line st2.column st2.indentStack st2.tokens).2 }
        .EOF_TOKEN).tokens := by
  obtain ⟨⟨pre, hpre⟩, hcount⟩ := h2
  have hne : st2.indentStack ≠ [] := by simp [hpre]
  have h3 := finalDedentsAux_spec st2.line st2.column st2.indentStack
    st2.tokens hne
  have h4 := h3.1
  have h5 := h3.2
  simp only [addToken, countType_append]
  have e1 : countType TokenType.INDENT
      ([⟨TokenType.EOF_TOKEN, "", st2.line, st2.column⟩] : List Token) = 0 :=
    by simp [countType]
  have e2 : countType TokenType.DEDENT
      ([⟨TokenType.EOF_TOKEN, "", st2.line, st2.column⟩] : List Token) = 0 :=
    by simp [countType]
  rw [e1, e2]
  omega

/-- C7: for every input source string, the token stream returned by
`Lexer::tokenize` contains exactly as many INDENT tokens as DEDENT tokens. -/
theorem claim_C7 (s : String) :
    countType .INDENT (tokenizeStr s) = countType .DEDENT (tokenizeStr s) := by
  have hinit : LexInv initLexState := by
    constructor
    · exact ⟨[], rfl⟩
    · simp [initLexState, countType]
  exact tokenizeFinal_balance _
    (lexInv_finalNewline _ (lexInv_tokenizeLoop initLexState s.data hinit))

/-- C3 as stated is false: the lexer emits a synthetic NEWLINE between the
final DEDENT and EOF for this input, because the token scanned last (the
DEDENT produced at end of input) is not a NEWLINE. -/
theorem claim_C3_counterexample :
    ¬ ((tokenizeStr "if x:\n    y\n    z\n").map Token.type =
      [.IF, .IDENTIFIER, .COLON, .NEWLINE, .INDENT, .IDENTIFIER, .NEWLINE,
       .IDENTIFIER, .NEWLINE, .DEDENT, .EOF_TOKEN]) := by decide

/-- C3 (amended): lexing "if x:\n    y\n    z\n" produces exactly the
token sequence IF, IDENTIFIER(x), COLON, NEWLINE, INDENT, IDENTIFIER(y),
NEWLINE, IDENTIFIER(z), NEWLINE, DEDENT, NEWLINE, EOF: identical to the
claimed sequence except that a synthetic NEWLINE precedes EOF. -/
theorem claim_C3 :
    (tokenizeStr "if x:\n    y\n    z\n").map (fun t => (t.type, t.value)) =
      [(.IF, "if"), (.IDENTIFIER, "x"), (.COLON, ""), (.NEWLINE, ""),
       (.INDENT, ""), (.IDENTIFIER, "y"), (.NEWLINE, ""),
       (.IDENTIFIER, "z"), (.NEWLINE, ""), (.DEDENT, ""), (.NEWLINE, ""),
       (.EOF_TOKEN, "")] := by decide

/-! ## AST (parser.h)

Every C++ `std::unique_ptr<Expression>` / `std::unique_ptr<Statement>` child
is modelled as an `Option`; vectors of owning pointers whose elements may be
null (call arguments, array elements) are lists of options.  A parameter
`Parameter \x7bname, type, default_value\x7d` is a triple.  The `ASTNodeType`
discriminator is carried by the constructor.  Every node ends with its
`line` and `column` fields (`ASTNode` defaults both to 0). -/

inductive Expr where
  | literal (value : String) (literalType : TokenType) (line column : Nat)
  | identifier (name : String) (line column : Nat)
  | binaryOp (left : Option Expr) (operatorType : TokenType)
      (right : Option Expr) (line column : Nat)
  | unaryOp (operatorType : TokenType) (operand : Option Expr)
      (line column : Nat)
  | ternary (condition trueExpr falseExpr : Option Expr) (line column : Nat)
  | call (callee : Option Expr) (arguments : List (Option Expr))
      (line column : Nat)
  | memberAccess (object : Option Expr) (member : String) (line column : Nat)
  | arrayAccess (array index : Option Expr) (line column : Nat)
  | arrayLiteral (elements : List (Option Expr)) (line column : Nat)
  | dictLiteral (pairs : List (Option Expr × Option Expr)) (line column : Nat)
  | lambda (parameters : List (String × String × Option Expr))
      (body : Option Expr) (line column : Nat)
  deriving Repr

/-- `Parameter \x7bname, type, default_value\x7d`. -/
abbrev Param : Type := String × String × Option Expr

inductive Stmt where
  | expressionStmt (expression : Option Expr) (line column : Nat)
  | block (statements : List Stmt) (line column : Nat)
  | ifStmt (condition : Option Expr) (thenBranch elseBranch : Option Stmt)
      (line column : Nat)
  | whileStmt (condition : Option Expr) (body : Option Stmt)
      (line column : Nat)
  | forStmt (var : String) (iterable : Option Expr)
      (body : Option Stmt) (line column : Nat)
  | matchStmt (expression : Option Expr)
      (cases : List (Option Expr × Option Stmt)) (line column : Nat)
  | returnStmt (value : Option Expr) (line column : Nat)
  | breakStmt (line column : Nat)
  | continueStmt (line column : Nat)
  | passStmt (line column : Nat)
  | varDecl (name type : String) (initializer : Option Expr)
      (isStatic : Bool) (annots : List String) (line column : Nat)
  | constDecl (name : String) (value : Option Expr) (line column : Nat)
  | funcDecl (name : String) (parameters : List Param) (returnType : String)
      (body : Option Stmt) (isStatic : Bool) (annots : List String)
      (line column : Nat)
  | classDecl (name baseClass : String) (members : List Stmt)
      (annots : List String) (line column : Nat)
  | signalDecl (name : String) (parameters : List Param) (line column : Nat)
  | enumDecl (name : String) (values : List (String × Option Expr))
      (line column : Nat)
  deriving Repr

/-- `Program` (an `ASTNode` of type PROGRAM; `line` and `column` stay at the
`ASTNode` defaults 0). -/
structure Program where
  statements : List Stmt
  line : Nat
  column : Nat
  deriving Repr

/-- `dynamic_cast<Declaration*>` succeeds exactly on declaration nodes. -/
def Stmt.isDecl : Stmt → Bool
  | .varDecl .. | .constDecl .. | .funcDecl .. | .classDecl ..
  | .signalDecl .. | .enumDecl .. => true
  | _ => false

/-- `decl->annotations = annotations` on a `FuncDecl` / `VarDecl` /
`ClassDecl` result. -/
def Stmt.withAnnots (annots : List String) : Stmt → Stmt
  | .varDecl n t i s _ l c => .varDecl n t i s annots l c
  | .funcDecl n p r b s _ l c => .funcDecl n p r b s annots l c
  | .classDecl n b m _ l c => .classDecl n b m annots l c
  | s => s

/-- `decl->is_static = true` on a `FuncDecl` / `VarDecl` result. -/
def Stmt.withStatic : Stmt → Stmt
  | .varDecl n t i _ a l c => .varDecl n t i true a l c
  | .funcDecl n p r b _ a l c => .funcDecl n p r b true a l c
  | s => s

/-! ## Parser (parser.cpp)

The token vector is immutable; the mutable parser state is the index
`current` and the error list.  Parsing functions are written in the fueled
style: each takes a step counter and returns `none` when it runs out, and
every recursive call decreases the counter, so the whole mutual block is
structurally recursive (and hence computable by `decide` / `rfl`).  For a
terminating parse a sufficiently large counter reproduces the C++ result;
an input on which every counter yields `none` makes the C++ parser loop
forever. -/

structure PState where
  current : Nat
  errors : List String
  deriving Repr

/-- Result of a fueled parser computation: `none` means the step counter
ran out. -/
abbrev PRes (alpha : Type) : Type := Option (alpha × PState)

/-- `Parser::peek`: out-of-range access yields an EOF token at line 0. -/
def peekAt (tokens : List Token) (pos : Nat) : Token :=
  tokens.getD pos ⟨.EOF_TOKEN, "", 0, 0⟩

/-- `Parser::peek` with offset 0. -/
def peekP (tokens : List Token) (st : PState) : Token :=
  peekAt tokens st.current

/-- `Parser::isAtEnd`. -/
def isAtEndP (tokens : List Token) (st : PState) : Bool :=
  (peekP tokens st).type == .EOF_TOKEN

/-- `Parser::advance`: move forward unless at end, return the token before
the new position. -/
def advanceP (tokens : List Token) (st : PState) : Token × PState :=
  let st2 := if isAtEndP tokens st then st
             else { st with current := st.current + 1 }
  (peekAt tokens (st2.current - 1), st2)

/-- `Parser::check`. -/
def checkP (tokens : List Token) (st : PState) (type : TokenType) : Bool :=
  if isAtEndP tokens st then false else (peekP tokens st).type == type

/-- `Parser::match`: try each kind in order, consuming on first hit. -/
def matchP (tokens : List Token) (st : PState) (types : List TokenType) :
    Bool × PState :=
  match types with
  | [] => (false, st)
  | t :: ts =>
      if checkP tokens st t then (true, (advanceP tokens st).2)
      else matchP tokens st ts

/-- `Parser::addError`. -/
def addPError (st : PState) (message : String) : PState :=
  { st with errors := st.errors ++ [message] }

/-- `Parser::consume`: on mismatch report the expected kind with the
current token line, then advance anyway to prevent stalls. -/
def consumeP (tokens : List Token) (st : PState) (type : TokenType)
    (message : String) : Token × PState :=
  if checkP tokens st type then advanceP tokens st
  else
    let tok := peekP tokens st
    let st := addPError st (message ++ " at line " ++ toString tok.line)
    advanceP tokens st

/-- Fueled skipping loop `while (match(\x7btypes\x7d))`.  Each successful
match advances `current`, so `tokens.length + 1` steps always suffice. -/
def skipMatchingF (tokens : List Token) :
    Nat → List TokenType → PState → PState
  | 0, _, st => st
  | n + 1, types, st =>
      let (m, st2) := matchP tokens st types
      if m then skipMatchingF tokens n types st2 else st

/-- `while (match(\x7btypes\x7d))` with the always-sufficient bound. -/
def skipMatching (tokens : List Token) (types : List TokenType)
    (st : PState) : PState :=
  skipMatchingF tokens (tokens.length + 1) types st

/-- `while (match(\x7bNEWLINE\x7d))`. -/
def skipNewlines (tokens : List Token) (st : PState) : PState :=
  skipMatching tokens [.NEWLINE] st

/-- The annotation-collecting loop at the top of `Parser::statement`. -/
def collectAnnotsF (tokens : List Token) :
    Nat → PState → List String × PState
  | 0, st => ([], st)
  | n + 1, st =>
      if checkP tokens st .ANNOT then
        let (tok, st) := advanceP tokens st
        let (rest, st) := collectAnnotsF tokens n st
        (tok.value :: rest, st)
      else ([], st)

/-- `while (check(ANNOTATION)) annotations.push_back(advance().value)`. -/
def collectAnnots (tokens : List Token) (st : PState) :
    List String × PState :=
  collectAnnotsF tokens (tokens.length + 1) st

/-- The recovery loop in `Parser::enumDeclaration`:
`while (!check(NEWLINE) && !isAtEnd()) advance()`. -/
def advanceUntilNewlineF (tokens : List Token) : Nat → PState → PState
  | 0, st => st
  | n + 1, st =>
      if !(checkP tokens st .NEWLINE) && !(isAtEndP tokens st) then
        advanceUntilNewlineF tokens n (advanceP tokens st).2
      else st

/-- `advanceUntilNewlineF` with the always-sufficient bound. -/
def advanceUntilNewline (tokens : List Token) (st : PState) : PState :=
  advanceUntilNewlineF tokens (tokens.length + 1) st

/-- The scan loop of `Parser::synchronize` (after its initial advance). -/
def synchronizeLoopF (tokens : List Token) : Nat → PState → PState
  | 0, st => st
  | n + 1, st =>
      if !(isAtEndP tokens st) then
        if (peekAt tokens (st.current - 1)).type == .NEWLINE then st
        else
          match (peekP tokens st).type with
          | .CLASS | .FUNC | .VAR | .CONST | .FOR | .IF | .WHILE
          | .RETURN => st
          | _ => synchronizeLoopF tokens n (advanceP tokens st).2
      else st

/-- `Parser::synchronize`.  (Unreachable from `parse`: no parsing routine
throws, so the `catch` block that calls it never runs.) -/
def synchronizeP (tokens : List Token) (st : PState) : PState :=
  synchronizeLoopF tokens (tokens.length + 1) (advanceP tokens st).2

variable (tokens : List Token)

/-- One step of `parseLoop` with its recursive calls abstracted. -/
def parseLoopBody (tokens : List Token) (step : PState → List Stmt → Nat → Int → Nat → PRes (List Stmt)) (self : PState → List Stmt → Nat → Int → Nat → PRes (List Stmt))
    (st : PState) (stmts : List Stmt) (stmtCount : Nat) (lastPos : Int) (stuck : Nat) : PRes (List Stmt) :=
      if isAtEndP tokens st then some (stmts, st)
      else
        -- skip newlines at top level
        let st := skipNewlines tokens st
        if isAtEndP tokens st then some (stmts, st)
        else
          if (Int.ofNat st.current) = lastPos then
            let stuck := stuck + 1
            if stuck ≥ 100 then
              -- force advance to break the loop
              let (_, st) := advanceP tokens st
              self st stmts stmtCount lastPos 0
            else step st stmts stmtCount lastPos stuck
          else step st stmts stmtCount (Int.ofNat st.current) 0

/-- One step of `parseStep` with its recursive calls abstracted. -/
def parseStepBody (tokens : List Token) (stmtP : PState → PRes (Option Stmt)) (loop : PState → List Stmt → Nat → Int → Nat → PRes (List Stmt))
    (st : PState) (stmts : List Stmt) (stmtCount : Nat) (lastPos : Int) (stuck : Nat) : PRes (List Stmt) :=
      -- skip empty tokens
      if (peekAt tokens st.current).value = "" then
        let (_, st) := advanceP tokens st
        loop st stmts stmtCount lastPos stuck
      else
        match stmtP st with
        | none => none
        | some (stmtOpt, st) =>
            match stmtOpt with
            | some s =>
                loop st (stmts ++ [s]) (stmtCount + 1) lastPos stuck
            | none => loop st stmts stmtCount lastPos stuck

/-- One step of `statement` with its recursive calls abstracted. -/
def statementBody (tokens : List Token) (classDeclP funcDeclP varDeclP constDeclP enumDeclP signalDeclP ifP whileP forP matchP2 returnP : PState → PRes Stmt) (exprStmtP : PState → PRes (Option Stmt)) (exprP : PState → PRes (Option Expr))
    (st : PState) : PRes (Option Stmt) :=
      let (annots, st) := collectAnnots tokens st
      let (m, st) := matchP tokens st [.CLASS_NAME]
      if m then
        let (nameTok, st) := consumeP tokens st .IDENTIFIER
          "Expected class name after \x27class_name\x27"
        let (_, st) := consumeP tokens st .NEWLINE
          "Expected newline after class_name declaration"
        some (some (.classDecl nameTok.value "" [] [] 0 0), st)
      else
      let (m, st) := matchP tokens st [.EXTENDS]
      if m then
        let (baseTok, st) := consumeP tokens st .IDENTIFIER
          "Expected base class name after \x27extends\x27"
        let (_, st) := consumeP tokens st .NEWLINE
          "Expected newline after extends declaration"
        some (some (.classDecl "" baseTok.value [] [] 0 0), st)
      else
      let (m, st) := matchP tokens st [.CLASS]
      if m then
        match classDeclP st with
        | none => none
        | some (decl, st) => some (some (decl.withAnnots annots), st)
      else
      let (m, st) := matchP tokens st [.STATIC]
      if m then
        let (mf, st) := matchP tokens st [.FUNC]
        if mf then
          match funcDeclP st with
          | none => none
          | some (decl, st) =>
              some (some ((decl.withAnnots annots).withStatic), st)
        else
          let (mv, st) := matchP tokens st [.VAR]
          if mv then
            match varDeclP st with
            | none => none
            | some (decl, st) =>
                some (some ((decl.withAnnots annots).withStatic), st)
          else
            let st := addPError st "Expected \x27func\x27 or \x27var\x27 after \x27static\x27"
            some (none, st)
      else
      let (m, st) := matchP tokens st [.FUNC]
      if m then
        match funcDeclP st with
        | none => none
        | some (decl, st) => some (some (decl.withAnnots annots), st)
      else
      let (m, st) := matchP tokens st [.VAR]
      if m then
        match varDeclP st with
        | none => none
        | some (decl, st) => some (some (decl.withAnnots annots), st)
      else
      let (m, st) := matchP tokens st [.CONST]
      if m then
        match constDeclP st with
        | none => none
        | some (decl, st) => some (some decl, st)
      else
      let (m, st) := matchP tokens st [.ENUM]
      if m then
        match enumDeclP st with
        | none => none
        | some (decl, st) => some (some decl, st)
      else
      let (m, st) := matchP tokens st [.SIGNAL]
      if m then
        match signalDeclP st with
        | none => none
        | some (decl, st) => some (some decl, st)
      else
      let (m, st) := matchP tokens st [.IF]
      if m then
        match ifP st with
        | none => none
        | some (s, st) => some (some s, st)
      else
      let (m, st) := matchP tokens st [.WHILE]
      if m then
        match whileP st with
        | none => none
        | some (s, st) => some (some s, st)
      else
      let (m, st) := matchP tokens st [.FOR]
      if m then
        match forP st with
        | none => none
        | some (s, st) => some (some s, st)
      else
      let (m, st) := matchP tokens st [.MATCH]
      if m then
        match matchP2 st with
        | none => none
        | some (s, st) => some (some s, st)
      else
      let (m, st) := matchP tokens st [.RETURN]
      if m then
        match returnP st with
        | none => none
        | some (s, st) => some (some s, st)
      else
      let (m, st) := matchP tokens st [.BREAK]
      if m then
        let (_, st) := consumeP tokens st .NEWLINE
          "Expected newline after \x27break\x27"
        some (some (.breakStmt 0 0), st)
      else
      let (m, st) := matchP tokens st [.CONTINUE]
      if m then
        let (_, st) := consumeP tokens st .NEWLINE
          "Expected newline after \x27continue\x27"
        some (some (.continueStmt 0 0), st)
      else
      let (m, st) := matchP tokens st [.PASS]
      if m then
        let (_, st) := consumeP tokens st .NEWLINE
          "Expected newline after \x27pass\x27"
        some (some (.passStmt 0 0), st)
      else
      -- type inference assignment lookahead (identifier := expression)
      if checkP tokens st .IDENTIFIER then
        let saved := st.current
        let (_, st) := advanceP tokens st
        let (mti, st) := matchP tokens st [.TYPE_INFER_ASSIGN]
        if mti then
          let st := { st with current := saved }
          let (nameTok, st) := consumeP tokens st .IDENTIFIER
            "Expected variable name"
          let (_, st) := consumeP tokens st .TYPE_INFER_ASSIGN
            "Expected \x27:=\x27 for type inference"
          match exprP st with
          | none => none
          | some (initializer, st) =>
              let (_, st) := consumeP tokens st .NEWLINE
                "Expected newline after type inference assignment"
              some (some (.varDecl nameTok.value "" initializer false [] 0 0),
                    st)
        else
          let st := { st with current := saved }
          exprStmtP st
      else exprStmtP st

/-- One step of `blockStatement` with its recursive calls abstracted. -/
def blockStatementBody (tokens : List Token) (loop : PState → List Stmt → PRes (List Stmt))
    (st : PState) : PRes Stmt :=
      let (_, st) := consumeP tokens st .INDENT "Expected indentation"
      match loop st [] with
      | none => none
      | some (stmts, st) =>
          let (_, st) := consumeP tokens st .DEDENT "Expected dedentation"
          some (.block stmts 0 0, st)

/-- One step of `blockLoop` with its recursive calls abstracted. -/
def blockLoopBody (tokens : List Token) (stmtP : PState → PRes (Option Stmt)) (self : PState → List Stmt → PRes (List Stmt))
    (st : PState) (acc : List Stmt) : PRes (List Stmt) :=
      if !(checkP tokens st .DEDENT) && !(isAtEndP tokens st) then
        let st := skipNewlines tokens st
        if checkP tokens st .DEDENT || isAtEndP tokens st then some (acc, st)
        else if (peekAt tokens st.current).value = "" then
          let (_, st) := advanceP tokens st
          self st acc
        else
          match stmtP st with
          | none => none
          | some (stmtOpt, st) =>
              match stmtOpt with
              | some s => self st (acc ++ [s])
              | none => self st acc
      else some (acc, st)

/-- One step of `ifStatement` with its recursive calls abstracted. -/
def ifStatementBody (tokens : List Token) (exprP : PState → PRes (Option Expr)) (blockP : PState → PRes Stmt) (self : PState → PRes Stmt)
    (st : PState) : PRes Stmt :=
      match exprP st with
      | none => none
      | some (condition, st) =>
          let (_, st) := consumeP tokens st .COLON
            "Expected \x27:\x27 after if condition"
          let (_, st) := consumeP tokens st .NEWLINE
            "Expected newline after \x27:\x27"
          match blockP st with
          | none => none
          | some (thenBranch, st) =>
              let (melif, st) := matchP tokens st [.ELIF]
              if melif then
                match self st with
                | none => none
                | some (elseBranch, st) =>
                    some (.ifStmt condition (some thenBranch)
                      (some elseBranch) 0 0, st)
              else
                let (melse, st) := matchP tokens st [.ELSE]
                if melse then
                  let (_, st) := consumeP tokens st .COLON
                    "Expected \x27:\x27 after else"
                  let (_, st) := consumeP tokens st .NEWLINE
                    "Expected newline after \x27:\x27"
                  match blockP st with
                  | none => none
                  | some (elseBranch, st) =>
                      some (.ifStmt condition (some thenBranch)
                        (some elseBranch) 0 0, st)
                else
                  some (.ifStmt condition (some thenBranch) none 0 0, st)

/-- One step of `whileStatement` with its recursive calls abstracted. -/
def whileStatementBody (tokens : List Token) (exprP : PState → PRes (Option Expr)) (blockP : PState → PRes Stmt)
    (st : PState) : PRes Stmt :=
      match exprP st with
      | none => none
      | some (condition, st) =>
          let (_, st) := consumeP tokens st .COLON
            "Expected \x27:\x27 after while condition"
          let (_, st) := consumeP tokens st .NEWLINE
            "Expected newline after \x27:\x27"
          match blockP st with
          | none => none
          | some (body, st) =>
              some (.whileStmt condition (some body) 0 0, st)

/-- One step of `forStatement` with its recursive calls abstracted. -/
def forStatementBody (tokens : List Token) (exprP : PState → PRes (Option Expr)) (blockP : PState → PRes Stmt)
    (st : PState) : PRes Stmt :=
      let (varTok, st) := consumeP tokens st .IDENTIFIER
        "Expected variable name"
      let (_, st) := consumeP tokens st .IN "Expected \x27in\x27 after for variable"
      match exprP st with
      | none => none
      | some (iterable, st) =>
          let (_, st) := consumeP tokens st .COLON
            "Expected \x27:\x27 after for expression"
          let (_, st) := consumeP tokens st .NEWLINE
            "Expected newline after \x27:\x27"
          match blockP st with
          | none => none
          | some (body, st) =>
              some (.forStmt varTok.value iterable (some body) 0 0, st)

/-- One step of `matchStatement` with its recursive calls abstracted. -/
def matchStatementBody (tokens : List Token) (exprP : PState → PRes (Option Expr)) (loop : PState → List (Option Expr × Option Stmt) → PRes (List (Option Expr × Option Stmt)))
    (st : PState) : PRes Stmt :=
      match exprP st with
      | none => none
      | some (expr, st) =>
          let (_, st) := consumeP tokens st .COLON
            "Expected \x27:\x27 after match expression"
          let (_, st) := consumeP tokens st .NEWLINE
            "Expected newline after \x27:\x27"
          let (_, st) := consumeP tokens st .INDENT "Expected indentation"
          match loop st [] with
          | none => none
          | some (cases, st) =>
              let (_, st) := consumeP tokens st .DEDENT
                "Expected dedentation"
              some (.matchStmt expr cases 0 0, st)

/-- One step of `matchLoop` with its recursive calls abstracted. -/
def matchLoopBody (tokens : List Token) (exprP : PState → PRes (Option Expr)) (blockP : PState → PRes Stmt) (self : PState → List (Option Expr × Option Stmt) → PRes (List (Option Expr × Option Stmt)))
    (st : PState) (acc : List (Option Expr × Option Stmt)) : PRes (List (Option Expr × Option Stmt)) :=
      if !(checkP tokens st .DEDENT) && !(isAtEndP tokens st) then
        let (mnl, st) := matchP tokens st [.NEWLINE]
        if mnl then self st acc
        else
          match exprP st with
          | none => none
          | some (pattern, st) =>
              let (_, st) := consumeP tokens st .COLON
                "Expected \x27:\x27 after match pattern"
              let (_, st) := consumeP tokens st .NEWLINE
                "Expected newline after \x27:\x27"
              match blockP st with
              | none => none
              | some (body, st) =>
                  self st (acc ++ [(pattern, some body)])
      else some (acc, st)

/-- One step of `returnStatement` with its recursive calls abstracted. -/
def returnStatementBody (tokens : List Token) (exprP : PState → PRes (Option Expr))
    (st : PState) : PRes Stmt :=
      match
        (if !(checkP tokens st .NEWLINE) && !(checkP tokens st .DEDENT) then
          exprP st
        else some ((none : Option Expr), st)) with
      | none => none
      | some (value, st) =>
          -- skip any newlines consumed during expression parsing
          let st := skipNewlines tokens st
          let st :=
            if !(checkP tokens st .NEWLINE) && !(checkP tokens st .DEDENT)
                && !(isAtEndP tokens st) then
              (consumeP tokens st .NEWLINE
                "Expected newline after return statement").2
            else st
          some (.returnStmt value 0 0, st)

/-- One step of `expressionStatement` with its recursive calls abstracted. -/
def expressionStatementBody (tokens : List Token) (exprP : PState → PRes (Option Expr))
    (st : PState) : PRes (Option Stmt) :=
      match exprP st with
      | none => none
      | some (expr, st) =>
          match expr with
          | none => some (none, st)
          | some e =>
              let st :=
                if checkP tokens st .NEWLINE then (advanceP tokens st).2
                else if !(checkP tokens st .DEDENT) &&
                    !(isAtEndP tokens st) then
                  (consumeP tokens st .NEWLINE
                    "Expected newline after expression").2
                else st
              some (some (.expressionStmt (some e) 0 0), st)

/-- One step of `varDeclaration` with its recursive calls abstracted. -/
def varDeclarationBody (tokens : List Token) (exprP : PState → PRes (Option Expr))
    (st : PState) : PRes Stmt :=
      let (nameTok, st) := consumeP tokens st .IDENTIFIER
        "Expected variable name"
      let (mcolon, st) := matchP tokens st [.COLON]
      match
        (if mcolon then
          let (typeTok, st) := consumeP tokens st .IDENTIFIER
            "Expected type name"
          let (mlb, st) := matchP tokens st [.LEFT_BRACKET]
          if mlb then
            let (genTok, st) := consumeP tokens st .IDENTIFIER
              "Expected generic type name"
            let (_, st) := consumeP tokens st .RIGHT_BRACKET
              "Expected \x27]\x27 after generic type"
            (typeTok.value ++ "[" ++ genTok.value ++ "]", st)
          else (typeTok.value, st)
        else ("", st)) with
      | (typeHint, st) =>
        let (massign, st) := matchP tokens st [.ASSIGN, .TYPE_INFER_ASSIGN]
        match
          (if massign then exprP st
          else some ((none : Option Expr), st)) with
        | none => none
        | some (initializer, st) =>
            let st :=
              if checkP tokens st .NEWLINE then (advanceP tokens st).2
              else if !(checkP tokens st .DEDENT) &&
                  !(isAtEndP tokens st) then
                (consumeP tokens st .NEWLINE
                  "Expected newline after variable declaration").2
              else st
            some (.varDecl nameTok.value typeHint initializer false [] 0 0,
                  st)

/-- One step of `constDeclaration` with its recursive calls abstracted. -/
def constDeclarationBody (tokens : List Token) (exprP : PState → PRes (Option Expr))
    (st : PState) : PRes Stmt :=
      let (nameTok, st) := consumeP tokens st .IDENTIFIER
        "Expected constant name"
      let (_, st) := consumeP tokens st .ASSIGN
        "Expected \x27=\x27 after constant name"
      match exprP st with
      | none => none
      | some (value, st) =>
          let (_, st) := consumeP tokens st .NEWLINE
            "Expected newline after constant declaration"
          some (.constDecl nameTok.value value 0 0, st)

/-- One step of `funcDeclaration` with its recursive calls abstracted. -/
def funcDeclarationBody (tokens : List Token) (paramsP : PState → PRes (List Param)) (blockP : PState → PRes Stmt)
    (st : PState) : PRes Stmt :=
      let (nameTok, st) := consumeP tokens st .IDENTIFIER
        "Expected function name"
      let (_, st) := consumeP tokens st .LEFT_PAREN
        "Expected \x27(\x27 after function name"
      match paramsP st with
      | none => none
      | some (params, st) =>
          let (_, st) := consumeP tokens st .RIGHT_PAREN
            "Expected \x27)\x27 after parameters"
          let (marrow, st) := matchP tokens st [.ARROW]
          match
            (if marrow then
              if checkP tokens st .VOID then
                let (typeTok, st) := advanceP tokens st
                (typeTok.value, st)
              else
                let (typeTok, st) := consumeP tokens st .IDENTIFIER
                  "Expected return type"
                (typeTok.value, st)
            else ("", st)) with
          | (returnType, st) =>
            let (_, st) := consumeP tokens st .COLON
              "Expected \x27:\x27 after function signature"
            let (_, st) := consumeP tokens st .NEWLINE
              "Expected newline after \x27:\x27"
            match blockP st with
            | none => none
            | some (body, st) =>
                some (.funcDecl nameTok.value params returnType (some body)
                  false [] 0 0, st)

/-- One step of `classDeclaration` with its recursive calls abstracted. -/
def classDeclarationBody (tokens : List Token) (loop : PState → List Stmt → PRes (List Stmt))
    (st : PState) : PRes Stmt :=
      let (nameTok, st) := consumeP tokens st .IDENTIFIER
        "Expected class name"
      let (mext, st) := matchP tokens st [.EXTENDS]
      match
        (if mext then
          let (baseTok, st) := consumeP tokens st .IDENTIFIER
            "Expected base class name"
          (baseTok.value, st)
        else ("", st)) with
      | (baseClass, st) =>
        let (_, st) := consumeP tokens st .COLON
          "Expected \x27:\x27 after class declaration"
        let (_, st) := consumeP tokens st .NEWLINE
          "Expected newline after \x27:\x27"
        let (_, st) := consumeP tokens st .INDENT "Expected indentation"
        match loop st [] with
        | none => none
        | some (members, st) =>
            let (_, st) := consumeP tokens st .DEDENT
              "Expected dedentation"
            some (.classDecl nameTok.value baseClass members [] 0 0, st)

/-- One step of `classLoop` with its recursive calls abstracted. -/
def classLoopBody (tokens : List Token) (stmtP : PState → PRes (Option Stmt)) (self : PState → List Stmt → PRes (List Stmt))
    (st : PState) (acc : List Stmt) : PRes (List Stmt) :=
      if !(checkP tokens st .DEDENT) && !(isAtEndP tokens st) then
        let (mnl, st) := matchP tokens st [.NEWLINE]
        if mnl then self st acc
        else
          match stmtP st with
          | none => none
          | some (memberOpt, st) =>
              match memberOpt with
              | some member =>
                  if member.isDecl then self st (acc ++ [member])
                  else
                    let st := addPError st
                      "Only declarations are allowed in class bodies"
                    self st acc
              | none => self st acc
      else some (acc, st)

/-- One step of `signalDeclaration` with its recursive calls abstracted. -/
def signalDeclarationBody (tokens : List Token) (paramsP : PState → PRes (List Param))
    (st : PState) : PRes Stmt :=
      let (nameTok, st) := consumeP tokens st .IDENTIFIER
        "Expected signal name"
      let (mlp, st) := matchP tokens st [.LEFT_PAREN]
      match
        (if mlp then
          match paramsP st with
          | none => none
          | some (params, st) =>
              let (_, st) := consumeP tokens st .RIGHT_PAREN
                "Expected \x27)\x27 after signal parameters"
              some (params, st)
        else some (([] : List Param), st)) with
      | none => none
      | some (params, st) =>
          let (_, st) := consumeP tokens st .NEWLINE
            "Expected newline after signal declaration"
          some (.signalDecl nameTok.value params 0 0, st)

/-- One step of `enumDeclaration` with its recursive calls abstracted. -/
def enumDeclarationBody (tokens : List Token) (loop : PState → List (String × Option Expr) → PRes (List (String × Option Expr)))
    (st : PState) : PRes Stmt :=
      let (nameTok, st) := consumeP tokens st .IDENTIFIER
        "Expected enum name"
      let (_, st) := consumeP tokens st .LEFT_BRACE
        "Expected \x27\x7b\x27 after enum name"
      let st := skipNewlines tokens st
      match
        (if !(checkP tokens st .RIGHT_BRACE) then loop st []
        else some (([] : List (String × Option Expr)), st)) with
      | none => none
      | some (values, st) =>
          -- skip trailing newlines and dedents before the closing brace
          let st := skipMatching tokens [.NEWLINE, .DEDENT] st
          let st :=
            if !(checkP tokens st .RIGHT_BRACE) then
              advanceUntilNewline tokens
                (addPError st "Expected \x27\x7d\x27 after enum values")
            else (consumeP tokens st .RIGHT_BRACE
              "Expected \x27\x7d\x27 after enum values").2
          let st :=
            if !(checkP tokens st .NEWLINE) then
              addPError st "Expected newline after enum declaration"
            else (consumeP tokens st .NEWLINE
              "Expected newline after enum declaration").2
          some (.enumDecl nameTok.value values 0 0, st)

/-- One step of `enumLoop` with its recursive calls abstracted. -/
def enumLoopBody (tokens : List Token) (exprP : PState → PRes (Option Expr)) (self : PState → List (String × Option Expr) → PRes (List (String × Option Expr)))
    (st : PState) (acc : List (String × Option Expr)) : PRes (List (String × Option Expr)) :=
      let st := skipNewlines tokens st
      let st := skipMatching tokens [.INDENT, .DEDENT] st
      if checkP tokens st .RIGHT_BRACE || isAtEndP tokens st then
        some (acc, st)
      else if (peekAt tokens st.current).value = "" then
        let (_, st) := advanceP tokens st
        if !(checkP tokens st .RIGHT_BRACE) && !(isAtEndP tokens st) then
          self st acc
        else some (acc, st)
      else if !(checkP tokens st .IDENTIFIER) then
        let st := addPError st
          ("Expected enum value name, got " ++ (peekAt tokens st.current).value)
        let (_, st) := advanceP tokens st
        if !(checkP tokens st .RIGHT_BRACE) && !(isAtEndP tokens st) then
          self st acc
        else some (acc, st)
      else
        let (nameTok, st) := consumeP tokens st .IDENTIFIER
          "Expected enum value name"
        let (massign, st) := matchP tokens st [.ASSIGN]
        match
          (if massign then exprP st
          else some ((none : Option Expr), st)) with
        | none => none
        | some (valueExpr, st) =>
            let acc := acc ++ [(nameTok.value, valueExpr)]
            let (mcomma, st) := matchP tokens st [.COMMA]
            if !mcomma then some (acc, st)
            else if !(checkP tokens st .RIGHT_BRACE) &&
                !(isAtEndP tokens st) then
              self st acc
            else some (acc, st)

/-- One step of `expression` with its recursive calls abstracted. -/
def expressionBody (tokens : List Token) (assignP : PState → PRes (Option Expr))
    (st : PState) : PRes (Option Expr) :=
 assignP st

/-- One step of `assignment` with its recursive calls abstracted. -/
def assignmentBody (tokens : List Token) (ternaryP : PState → PRes (Option Expr)) (self : PState → PRes (Option Expr))
    (st : PState) : PRes (Option Expr) :=
      match ternaryP st with
      | none => none
      | some (expr, st) =>
          match expr with
          | none => some (none, st)
          | some e =>
              let (m, st) := matchP tokens st
                [.ASSIGN, .TYPE_INFER_ASSIGN, .PLUS_ASSIGN, .MINUS_ASSIGN,
                 .MULTIPLY_ASSIGN, .DIVIDE_ASSIGN, .MODULO_ASSIGN]
              if m then
                let opTok := peekAt tokens (st.current - 1)
                match self st with
                | none => none
                | some (value, st) =>
                    match value with
                    | none => some (none, st)
                    | some v =>
                        some (some (.binaryOp (some e) opTok.type (some v)
                          0 0), st)
              else some (some e, st)

/-- One step of `ternary` with its recursive calls abstracted. -/
def ternaryBody (tokens : List Token) (orP : PState → PRes (Option Expr)) (self : PState → PRes (Option Expr))
    (st : PState) : PRes (Option Expr) :=
      match orP st with
      | none => none
      | some (expr, st) =>
          let (m, st) := matchP tokens st [.IF]
          if m then
            match orP st with
            | none => none
            | some (condition, st) =>
                let (_, st) := consumeP tokens st .ELSE
                  "Expected \x27else\x27 in ternary expression"
                match self st with
                | none => none
                | some (falseExpr, st) =>
                    some (some (.ternary condition expr falseExpr 0 0), st)
          else some (expr, st)

/-- One step of `logicalOr` with its recursive calls abstracted. -/
def logicalOrBody (tokens : List Token) (andP : PState → PRes (Option Expr)) (loop : PState → Expr → PRes (Option Expr))
    (st : PState) : PRes (Option Expr) :=
      match andP st with
      | none => none
      | some (expr, st) =>
          match expr with
          | none => some (none, st)
          | some e => loop st e

/-- One step of `logicalOrLoop` with its recursive calls abstracted. -/
def logicalOrLoopBody (tokens : List Token) (andP : PState → PRes (Option Expr)) (self : PState → Expr → PRes (Option Expr))
    (st : PState) (e : Expr) : PRes (Option Expr) :=
      let (m, st) := matchP tokens st [.OR, .LOGICAL_OR]
      if m then
        let opTok := peekAt tokens (st.current - 1)
        match andP st with
        | none => none
        | some (right, st) =>
            match right with
            | none => some (none, st)
            | some r =>
                self st (.binaryOp (some e) opTok.type (some r)
                  0 0)
      else some (some e, st)

/-- One step of `logicalAnd` with its recursive calls abstracted. -/
def logicalAndBody (tokens : List Token) (eqP : PState → PRes (Option Expr)) (loop : PState → Option Expr → PRes (Option Expr))
    (st : PState) : PRes (Option Expr) :=
      match eqP st with
      | none => none
      | some (expr, st) => loop st expr

/-- One step of `logicalAndLoop` with its recursive calls abstracted. -/
def logicalAndLoopBody (tokens : List Token) (eqP : PState → PRes (Option Expr)) (self : PState → Option Expr → PRes (Option Expr))
    (st : PState) (e : Option Expr) : PRes (Option Expr) :=
      let (m, st) := matchP tokens st [.AND, .LOGICAL_AND]
      if m then
        let opTok := peekAt tokens (st.current - 1)
        match eqP st with
        | none => none
        | some (right, st) =>
            self st (some (.binaryOp e opTok.type right 0 0))
      else some (e, st)

/-- One step of `equality` with its recursive calls abstracted. -/
def equalityBody (tokens : List Token) (cmpP : PState → PRes (Option Expr)) (loop : PState → Option Expr → PRes (Option Expr))
    (st : PState) : PRes (Option Expr) :=
      match cmpP st with
      | none => none
      | some (expr, st) => loop st expr

/-- One step of `equalityLoop` with its recursive calls abstracted. -/
def equalityLoopBody (tokens : List Token) (cmpP : PState → PRes (Option Expr)) (self : PState → Option Expr → PRes (Option Expr))
    (st : PState) (e : Option Expr) : PRes (Option Expr) :=
      let (m, st) := matchP tokens st [.EQUAL, .NOT_EQUAL]
      if m then
        let opTok := peekAt tokens (st.current - 1)
        match cmpP st with
        | none => none
        | some (right, st) =>
            self st (some (.binaryOp e opTok.type right 0 0))
      else some (e, st)

/-- One step of `comparison` with its recursive calls abstracted. -/
def comparisonBody (tokens : List Token) (termP : PState → PRes (Option Expr)) (loop : PState → Option Expr → PRes (Option Expr))
    (st : PState) : PRes (Option Expr) :=
      match termP st with
      | none => none
      | some (expr, st) => loop st expr

/-- One step of `comparisonLoop` with its recursive calls abstracted. -/
def comparisonLoopBody (tokens : List Token) (termP : PState → PRes (Option Expr)) (self : PState → Option Expr → PRes (Option Expr))
    (st : PState) (e : Option Expr) : PRes (Option Expr) :=
      let (m, st) := matchP tokens st
        [.GREATER, .GREATER_EQUAL, .LESS, .LESS_EQUAL, .IN]
      if m then
        let opTok := peekAt tokens (st.current - 1)
        match termP st with
        | none => none
        | some (right, st) =>
            self st (some (.binaryOp e opTok.type right 0 0))
      else some (e, st)

/-- One step of `term` with its recursive calls abstracted. -/
def termBody (tokens : List Token) (factorP : PState → PRes (Option Expr)) (loop : PState → Option Expr → PRes (Option Expr))
    (st : PState) : PRes (Option Expr) :=
      match factorP st with
      | none => none
      | some (expr, st) => loop st expr

/-- One step of `termLoop` with its recursive calls abstracted. -/
def termLoopBody (tokens : List Token) (factorP : PState → PRes (Option Expr)) (self : PState → Option Expr → PRes (Option Expr))
    (st : PState) (e : Option Expr) : PRes (Option Expr) :=
      let (m, st) := matchP tokens st [.MINUS, .PLUS]
      if m then
        let opTok := peekAt tokens (st.current - 1)
        match factorP st with
        | none => none
        | some (right, st) =>
            self st (some (.binaryOp e opTok.type right 0 0))
      else some (e, st)

/-- One step of `factor` with its recursive calls abstracted. -/
def factorBody (tokens : List Token) (unaryP : PState → PRes (Option Expr)) (loop : PState → Expr → PRes (Option Expr))
    (st : PState) : PRes (Option Expr) :=
      match unaryP st with
      | none => none
      | some (expr, st) =>
          match expr with
          | none => some (none, st)
          | some e => loop st e

/-- One step of `factorLoop` with its recursive calls abstracted. -/
def factorLoopBody (tokens : List Token) (unaryP : PState → PRes (Option Expr)) (self : PState → Expr → PRes (Option Expr))
    (st : PState) (e : Expr) : PRes (Option Expr) :=
      let (m, st) := matchP tokens st [.DIVIDE, .MULTIPLY, .MODULO]
      if m then
        let opTok := peekAt tokens (st.current - 1)
        match unaryP st with
        | none => none
        | some (right, st) =>
            match right with
            | none => some (none, st)
            | some r =>
                self st (.binaryOp (some e) opTok.type (some r) 0 0)
      else some (some e, st)

/-- One step of `unary` with its recursive calls abstracted. -/
def unaryBody (tokens : List Token) (self : PState → PRes (Option Expr)) (callP : PState → PRes (Option Expr))
    (st : PState) : PRes (Option Expr) :=
      let (m, st) := matchP tokens st [.NOT, .LOGICAL_NOT, .MINUS, .PLUS]
      if m then
        let opTok := peekAt tokens (st.current - 1)
        match self st with
        | none => none
        | some (right, st) =>
            match right with
            | none => some (none, st)
            | some r => some (some (.unaryOp opTok.type (some r) 0 0), st)
      else callP st

/-- One step of `call` with its recursive calls abstracted. -/
def callBody (tokens : List Token) (primaryP : PState → PRes (Option Expr)) (loop : PState → Expr → PRes (Option Expr))
    (st : PState) : PRes (Option Expr) :=
      match primaryP st with
      | none => none
      | some (expr, st) =>
          match expr with
          | none => some (none, st)
          | some e => loop st e

/-- One step of `callLoop` with its recursive calls abstracted. -/
def callLoopBody (tokens : List Token) (argsP : PState → PRes (List (Option Expr))) (exprP : PState → PRes (Option Expr)) (self : PState → Expr → PRes (Option Expr))
    (st : PState) (e : Expr) : PRes (Option Expr) :=
      let (mp, st) := matchP tokens st [.LEFT_PAREN]
      if mp then
        match argsP st with
        | none => none
        | some (args, st) =>
            let (_, st) := consumeP tokens st .RIGHT_PAREN
              "Expected \x27)\x27 after arguments"
            self st (.call (some e) args 0 0)
      else
        let (md, st) := matchP tokens st [.DOT]
        if md then
          let (nameTok, st) := consumeP tokens st .IDENTIFIER
            "Expected property name after \x27.\x27"
          self st (.memberAccess (some e) nameTok.value 0 0)
        else
          let (mb, st) := matchP tokens st [.LEFT_BRACKET]
          if mb then
            match exprP st with
            | none => none
            | some (index, st) =>
                let (_, st) := consumeP tokens st .RIGHT_BRACKET
                  "Expected \x27]\x27 after array index"
                self st (.arrayAccess (some e) index 0 0)
          else some (some e, st)

/-- One step of `primary` with its recursive calls abstracted. -/
def primaryBody (tokens : List Token) (exprP : PState → PRes (Option Expr)) (arrP : PState → List (Option Expr) → PRes (List (Option Expr))) (dictP : PState → List (Option Expr × Option Expr) → PRes (List (Option Expr × Option Expr))) (paramsP : PState → PRes (List Param))
    (st : PState) : PRes (Option Expr) :=
      let (m, st) := matchP tokens st [.BOOLEAN, .NULL_LITERAL]
      if m then
        let tok := peekAt tokens (st.current - 1)
        some (some (.literal tok.value tok.type 0 0), st)
      else
      let (m, st) := matchP tokens st [.INTEGER, .FLOAT, .STRING]
      if m then
        let tok := peekAt tokens (st.current - 1)
        some (some (.literal tok.value tok.type 0 0), st)
      else
      let (m, st) := matchP tokens st [.IDENTIFIER]
      if m then
        let tok := peekAt tokens (st.current - 1)
        some (some (.identifier tok.value 0 0), st)
      else
      let (m, st) := matchP tokens st [.LEFT_PAREN]
      if m then
        match exprP st with
        | none => none
        | some (expr, st) =>
            let (_, st) := consumeP tokens st .RIGHT_PAREN
              "Expected \x27)\x27 after expression"
            some (expr, st)
      else
      let (m, st) := matchP tokens st [.LEFT_BRACKET]
      if m then
        let st := skipMatching tokens [.NEWLINE, .INDENT] st
        match
          (if !(checkP tokens st .RIGHT_BRACKET) then arrP st []
          else some (([] : List (Option Expr)), st)) with
        | none => none
        | some (elements, st) =>
            let st := skipMatching tokens [.NEWLINE, .DEDENT] st
            let (_, st) := consumeP tokens st .RIGHT_BRACKET
              "Expected \x27]\x27 after array elements"
            some (some (.arrayLiteral elements 0 0), st)
      else
      let (m, st) := matchP tokens st [.LEFT_BRACE]
      if m then
        let st := skipMatching tokens [.NEWLINE, .INDENT] st
        match
          (if !(checkP tokens st .RIGHT_BRACE) then dictP st []
          else some (([] : List (Option Expr × Option Expr)), st)) with
        | none => none
        | some (pairs, st) =>
            let st := skipMatching tokens [.NEWLINE, .DEDENT] st
            let (_, st) := consumeP tokens st .RIGHT_BRACE
              "Expected \x27\x7d\x27 after dictionary elements"
            some (some (.dictLiteral pairs 0 0), st)
      else
      let (m, st) := matchP tokens st [.FUNC]
      if m then
        let (_, st) := consumeP tokens st .LEFT_PAREN
          "Expected \x27(\x27 after \x27func\x27"
        match paramsP st with
        | none => none
        | some (params, st) =>
            let (_, st) := consumeP tokens st .RIGHT_PAREN
              "Expected \x27)\x27 after lambda parameters"
            let (_, st) := consumeP tokens st .COLON
              "Expected \x27:\x27 after lambda parameters"
            match exprP st with
            | none => none
            | some (body, st) =>
                some (some (.lambda params body 0 0), st)
      else
        let st := addPError st "Expected expression"
        some (none, st)

/-- One step of `arrayElemsLoop` with its recursive calls abstracted. -/
def arrayElemsLoopBody (tokens : List Token) (exprP : PState → PRes (Option Expr)) (self : PState → List (Option Expr) → PRes (List (Option Expr)))
    (st : PState) (acc : List (Option Expr)) : PRes (List (Option Expr)) :=
      let st := skipMatching tokens [.NEWLINE, .INDENT] st
      if checkP tokens st .RIGHT_BRACKET || checkP tokens st .DEDENT ||
          isAtEndP tokens st then some (acc, st)
      else
        match exprP st with
        | none => none
        | some (element, st) =>
            match element with
            | none => some (acc, st)
            | some e =>
                let acc := acc ++ [some e]
                let st := skipNewlines tokens st
                let (mcomma, st) := matchP tokens st [.COMMA]
                if mcomma then self st acc else some (acc, st)

/-- One step of `dictElemsLoop` with its recursive calls abstracted. -/
def dictElemsLoopBody (tokens : List Token) (exprP : PState → PRes (Option Expr)) (self : PState → List (Option Expr × Option Expr) → PRes (List (Option Expr × Option Expr)))
    (st : PState) (acc : List (Option Expr × Option Expr)) : PRes (List (Option Expr × Option Expr)) :=
      let st := skipMatching tokens [.NEWLINE, .INDENT] st
      if checkP tokens st .RIGHT_BRACE || checkP tokens st .DEDENT ||
          isAtEndP tokens st then some (acc, st)
      else
        match exprP st with
        | none => none
        | some (key, st) =>
            match key with
            | none => some (acc, st)
            | some k =>
                let (_, st) := consumeP tokens st .COLON
                  "Expected \x27:\x27 after dictionary key"
                match exprP st with
                | none => none
                | some (value, st) =>
                    match value with
                    | none => some (acc, st)
                    | some v =>
                        let acc := acc ++ [(some k, some v)]
                        let st := skipNewlines tokens st
                        let (mcomma, st) := matchP tokens st [.COMMA]
                        if mcomma then self st acc
                        else some (acc, st)

/-- One step of `parameters` with its recursive calls abstracted. -/
def parametersBody (tokens : List Token) (loop : PState → List Param → PRes (List Param))
    (st : PState) : PRes (List Param) :=
      if !(checkP tokens st .RIGHT_PAREN) then loop st []
      else some ([], st)

/-- One step of `paramLoop` with its recursive calls abstracted. -/
def paramLoopBody (tokens : List Token) (exprP : PState → PRes (Option Expr)) (self : PState → List Param → PRes (List Param))
    (st : PState) (acc : List Param) : PRes (List Param) :=
      let (nameTok, st) := consumeP tokens st .IDENTIFIER
        "Expected parameter name"
      let (mcolon, st) := matchP tokens st [.COLON]
      match
        (if mcolon then
          let (typeTok, st) := consumeP tokens st .IDENTIFIER
            "Expected parameter type"
          (typeTok.value, st)
        else ("", st)) with
      | (ptype, st) =>
        let (massign, st) := matchP tokens st [.ASSIGN]
        match
          (if massign then exprP st
          else some ((none : Option Expr), st)) with
        | none => none
        | some (defaultValue, st) =>
            let acc := acc ++ [(nameTok.value, ptype, defaultValue)]
            let (mcomma, st) := matchP tokens st [.COMMA]
            if mcomma then self st acc else some (acc, st)

/-- One step of `arguments` with its recursive calls abstracted. -/
def argumentsBody (tokens : List Token) (loop : PState → List (Option Expr) → PRes (List (Option Expr)))
    (st : PState) : PRes (List (Option Expr)) :=
      if !(checkP tokens st .RIGHT_PAREN) then loop st []
      else some ([], st)

/-- One step of `argLoop` with its recursive calls abstracted. -/
def argLoopBody (tokens : List Token) (exprP : PState → PRes (Option Expr)) (self : PState → List (Option Expr) → PRes (List (Option Expr)))
    (st : PState) (acc : List (Option Expr)) : PRes (List (Option Expr)) :=
      match exprP st with
      | none => none
      | some (arg, st) =>
          let acc := acc ++ [arg]
          let (mcomma, st) := matchP tokens st [.COMMA]
          if mcomma then self st acc else some (acc, st)

mutual

/-- The top-level loop of `Parser::parse`.  Loop state: accumulated
statements, `statement_count`, `last_token_position` (an `int`, initially
-1) and `stuck_count`.  (The C++ `try`/`catch` around `statement()` is
omitted: no parsing routine throws, so `synchronize` is unreachable.) -/
def parseLoop : Nat → PState → List Stmt → Nat → Int → Nat → PRes (List Stmt)
  | 0, _, _, _, _, _ => none
  | f + 1, st, stmts, stmtCount, lastPos, stuck =>
      parseLoopBody tokens (parseStep f) (parseLoop f) st stmts stmtCount lastPos stuck

/-- The tail of one `Parser::parse` iteration: the empty-lexeme skip and
the `statement()` call. -/
def parseStep : Nat → PState → List Stmt → Nat → Int → Nat → PRes (List Stmt)
  | 0, _, _, _, _, _ => none
  | f + 1, st, stmts, stmtCount, lastPos, stuck =>
      parseStepBody tokens (statement f) (parseLoop f) st stmts stmtCount lastPos stuck

/-- `Parser::statement`. -/
def statement : Nat → PState → PRes (Option Stmt)
  | 0, _ => none
  | f + 1, st =>
      statementBody tokens (classDeclaration f) (funcDeclaration f) (varDeclaration f) (constDeclaration f) (enumDeclaration f) (signalDeclaration f) (ifStatement f) (whileStatement f) (forStatement f) (matchStatement f) (returnStatement f) (expressionStatement f) (expression f) st

/-- `Parser::blockStatement`. -/
def blockStatement : Nat → PState → PRes Stmt
  | 0, _ => none
  | f + 1, st =>
      blockStatementBody tokens (blockLoop f) st

/-- The statement loop of `Parser::blockStatement`. -/
def blockLoop : Nat → PState → List Stmt → PRes (List Stmt)
  | 0, _, _ => none
  | f + 1, st, acc =>
      blockLoopBody tokens (statement f) (blockLoop f) st acc

/-- `Parser::ifStatement`. -/
def ifStatement : Nat → PState → PRes Stmt
  | 0, _ => none
  | f + 1, st =>
      ifStatementBody tokens (expression f) (blockStatement f) (ifStatement f) st

/-- `Parser::whileStatement`. -/
def whileStatement : Nat → PState → PRes Stmt
  | 0, _ => none
  | f + 1, st =>
      whileStatementBody tokens (expression f) (blockStatement f) st

/-- `Parser::forStatement`. -/
def forStatement : Nat → PState → PRes Stmt
  | 0, _ => none
  | f + 1, st =>
      forStatementBody tokens (expression f) (blockStatement f) st

/-- `Parser::matchStatement`. -/
def matchStatement : Nat → PState → PRes Stmt
  | 0, _ => none
  | f + 1, st =>
      matchStatementBody tokens (expression f) (matchLoop f) st

/-- The case loop of `Parser::matchStatement`. -/
def matchLoop : Nat → PState → List (Option Expr × Option Stmt) → PRes (List (Option Expr × Option Stmt))
  | 0, _, _ => none
  | f + 1, st, acc =>
      matchLoopBody tokens (expression f) (blockStatement f) (matchLoop f) st acc

/-- `Parser::returnStatement`. -/
def returnStatement : Nat → PState → PRes Stmt
  | 0, _ => none
  | f + 1, st =>
      returnStatementBody tokens (expression f) st

/-- `Parser::expressionStatement`. -/
def expressionStatement : Nat → PState → PRes (Option Stmt)
  | 0, _ => none
  | f + 1, st =>
      expressionStatementBody tokens (expression f) st

/-- `Parser::varDeclaration`. -/
def varDeclaration : Nat → PState → PRes Stmt
  | 0, _ => none
  | f + 1, st =>
      varDeclarationBody tokens (expression f) st

/-- `Parser::constDeclaration`. -/
def constDeclaration : Nat → PState → PRes Stmt
  | 0, _ => none
  | f + 1, st =>
      constDeclarationBody tokens (expression f) st

/-- `Parser::funcDeclaration`. -/
def funcDeclaration : Nat → PState → PRes Stmt
  | 0, _ => none
  | f + 1, st =>
      funcDeclarationBody tokens (parameters f) (blockStatement f) st

/-- `Parser::classDeclaration`. -/
def classDeclaration : Nat → PState → PRes Stmt
  | 0, _ => none
  | f + 1, st =>
      classDeclarationBody tokens (classLoop f) st

/-- The member loop of `Parser::classDeclaration`. -/
def classLoop : Nat → PState → List Stmt → PRes (List Stmt)
  | 0, _, _ => none
  | f + 1, st, acc =>
      classLoopBody tokens (statement f) (classLoop f) st acc

/-- `Parser::signalDeclaration`. -/
def signalDeclaration : Nat → PState → PRes Stmt
  | 0, _ => none
  | f + 1, st =>
      signalDeclarationBody tokens (parameters f) st

/-- `Parser::enumDeclaration`. -/
def enumDeclaration : Nat → PState → PRes Stmt
  | 0, _ => none
  | f + 1, st =>
      enumDeclarationBody tokens (enumLoop f) st

/-- The value loop (a do-while) of `Parser::enumDeclaration`.  A
`continue` in a C++ do-while jumps to the condition test, which is
`!check(RIGHT_BRACE) && !isAtEnd()`. -/
def enumLoop : Nat → PState → List (String × Option Expr) → PRes (List (String × Option Expr))
  | 0, _, _ => none
  | f + 1, st, acc =>
      enumLoopBody tokens (expression f) (enumLoop f) st acc

/-- `Parser::expression`. -/
def expression : Nat → PState → PRes (Option Expr)
  | 0, _ => none
  | f + 1, st =>
      expressionBody tokens (assignment f) st

/-- `Parser::assignment`. -/
def assignment : Nat → PState → PRes (Option Expr)
  | 0, _ => none
  | f + 1, st =>
      assignmentBody tokens (ternary f) (assignment f) st

/-- `Parser::ternary` (no null checks in the C++). -/
def ternary : Nat → PState → PRes (Option Expr)
  | 0, _ => none
  | f + 1, st =>
      ternaryBody tokens (logicalOr f) (ternary f) st

/-- `Parser::logicalOr` (null-checks both sides). -/
def logicalOr : Nat → PState → PRes (Option Expr)
  | 0, _ => none
  | f + 1, st =>
      logicalOrBody tokens (logicalAnd f) (logicalOrLoop f) st

/-- `Parser::logicalOrLoop`. -/
def logicalOrLoop : Nat → PState → Expr → PRes (Option Expr)
  | 0, _, _ => none
  | f + 1, st, e =>
      logicalOrLoopBody tokens (logicalAnd f) (logicalOrLoop f) st e

/-- `Parser::logicalAnd` (no null checks in the C++). -/
def logicalAnd : Nat → PState → PRes (Option Expr)
  | 0, _ => none
  | f + 1, st =>
      logicalAndBody tokens (equality f) (logicalAndLoop f) st

/-- `Parser::logicalAndLoop`. -/
def logicalAndLoop : Nat → PState → Option Expr → PRes (Option Expr)
  | 0, _, _ => none
  | f + 1, st, e =>
      logicalAndLoopBody tokens (equality f) (logicalAndLoop f) st e

/-- `Parser::equality` (no null checks in the C++). -/
def equality : Nat → PState → PRes (Option Expr)
  | 0, _ => none
  | f + 1, st =>
      equalityBody tokens (comparison f) (equalityLoop f) st

/-- `Parser::equalityLoop`. -/
def equalityLoop : Nat → PState → Option Expr → PRes (Option Expr)
  | 0, _, _ => none
  | f + 1, st, e =>
      equalityLoopBody tokens (comparison f) (equalityLoop f) st e

/-- `Parser::comparison` (no null checks in the C++). -/
def comparison : Nat → PState → PRes (Option Expr)
  | 0, _ => none
  | f + 1, st =>
      comparisonBody tokens (term f) (comparisonLoop f) st

/-- `Parser::comparisonLoop`. -/
def comparisonLoop : Nat → PState → Option Expr → PRes (Option Expr)
  | 0, _, _ => none
  | f + 1, st, e =>
      comparisonLoopBody tokens (term f) (comparisonLoop f) st e

/-- `Parser::term` (no null checks in the C++). -/
def term : Nat → PState → PRes (Option Expr)
  | 0, _ => none
  | f + 1, st =>
      termBody tokens (factor f) (termLoop f) st

/-- `Parser::termLoop`. -/
def termLoop : Nat → PState → Option Expr → PRes (Option Expr)
  | 0, _, _ => none
  | f + 1, st, e =>
      termLoopBody tokens (factor f) (termLoop f) st e

/-- `Parser::factor` (null-checks both sides). -/
def factor : Nat → PState → PRes (Option Expr)
  | 0, _ => none
  | f + 1, st =>
      factorBody tokens (unary f) (factorLoop f) st

/-- `Parser::factorLoop`. -/
def factorLoop : Nat → PState → Expr → PRes (Option Expr)
  | 0, _, _ => none
  | f + 1, st, e =>
      factorLoopBody tokens (unary f) (factorLoop f) st e

/-- `Parser::unary`. -/
def unary : Nat → PState → PRes (Option Expr)
  | 0, _ => none
  | f + 1, st =>
      unaryBody tokens (unary f) (call f) st

/-- `Parser::call`. -/
def call : Nat → PState → PRes (Option Expr)
  | 0, _ => none
  | f + 1, st =>
      callBody tokens (primary f) (callLoop f) st

/-- `Parser::callLoop`. -/
def callLoop : Nat → PState → Expr → PRes (Option Expr)
  | 0, _, _ => none
  | f + 1, st, e =>
      callLoopBody tokens (arguments f) (expression f) (callLoop f) st e

/-- `Parser::primary`. -/
def primary : Nat → PState → PRes (Option Expr)
  | 0, _ => none
  | f + 1, st =>
      primaryBody tokens (expression f) (arrayElemsLoop f) (dictElemsLoop f) (parameters f) st

/-- The element do-while of the array-literal branch of `Parser::primary`. -/
def arrayElemsLoop : Nat → PState → List (Option Expr) → PRes (List (Option Expr))
  | 0, _, _ => none
  | f + 1, st, acc =>
      arrayElemsLoopBody tokens (expression f) (arrayElemsLoop f) st acc

/-- The pair do-while of the dictionary-literal branch of
`Parser::primary`. -/
def dictElemsLoop : Nat → PState → List (Option Expr × Option Expr) → PRes (List (Option Expr × Option Expr))
  | 0, _, _ => none
  | f + 1, st, acc =>
      dictElemsLoopBody tokens (expression f) (dictElemsLoop f) st acc

/-- `Parser::parameters`. -/
def parameters : Nat → PState → PRes (List Param)
  | 0, _ => none
  | f + 1, st =>
      parametersBody tokens (paramLoop f) st

/-- `Parser::paramLoop`. -/
def paramLoop : Nat → PState → List Param → PRes (List Param)
  | 0, _, _ => none
  | f + 1, st, acc =>
      paramLoopBody tokens (expression f) (paramLoop f) st acc

/-- `Parser::arguments` (may push null expressions). -/
def arguments : Nat → PState → PRes (List (Option Expr))
  | 0, _ => none
  | f + 1, st =>
      argumentsBody tokens (argLoop f) st

/-- `Parser::argLoop`. -/
def argLoop : Nat → PState → List (Option Expr) → PRes (List (Option Expr))
  | 0, _, _ => none
  | f + 1, st, acc =>
      argLoopBody tokens (expression f) (argLoop f) st acc

end

/-- `Parser::parse`: run the top-level loop from a fresh parser state and
wrap the collected statements in a `Program`. -/
def parse (fuel : Nat) : Option (Program × PState) :=
  match parseLoop tokens fuel ⟨0, []⟩ [] 0 (-1) 0 with
  | none => none
  | some (stmts, st) => some (⟨stmts, 0, 0⟩, st)

/-! ## Non-termination of the parser on `else` inside a block (C5)

The token stream of the source `"if x:\n    else\n"` drives
`Parser::blockStatement` into an infinite loop: at the `ELSE` token
`statement()` reaches `expressionStatement()`, `primary()` reports
"Expected expression" without consuming anything and returns null, and
`blockStatement`'s loop repeats from the same token index.  The stuck-state
heuristic lives only in `Parser::parse`'s top-level loop, not in
`blockStatement`.  In the fueled embedding: every fuel value yields
`none`. -/

/-- The token stream `tokenize` produces for `"if x:\n    else\n"`. -/
def elseTokens : List Token :=
  [⟨.IF, "if", 1, 3⟩, ⟨.IDENTIFIER, "x", 1, 5⟩, ⟨.COLON, "", 1, 6⟩,
   ⟨.NEWLINE, "", 2, 1⟩, ⟨.INDENT, "", 2, 5⟩, ⟨.ELSE, "else", 2, 9⟩,
   ⟨.NEWLINE, "", 3, 1⟩, ⟨.DEDENT, "", 3, 1⟩, ⟨.NEWLINE, "", 3, 1⟩,
   ⟨.EOF_TOKEN, "", 3, 1⟩]

theorem c5_ternaryBody (orP selfP : PState → PRes (Option Expr))
    (st st2 : PState) (x : Option Expr)
    (hc : checkP elseTokens st2 .IF = false)
    (h : orP st = some (x, st2)) :
    ternaryBody elseTokens orP selfP st = some (x, st2) := by
  simp only [ternaryBody]
  rw [h]
  simp [matchP, hc]

theorem c5_ternaryBodyNone (orP selfP : PState → PRes (Option Expr))
    (st : PState) (h : orP st = none) :
    ternaryBody elseTokens orP selfP st = none := by
  simp only [ternaryBody]
  rw [h]

theorem c5_assignmentBody (ternaryP selfP : PState → PRes (Option Expr))
    (st st2 : PState) (x : Option Expr)
    (hc : matchP elseTokens st2
      [.ASSIGN, .TYPE_INFER_ASSIGN, .PLUS_ASSIGN, .MINUS_ASSIGN,
       .MULTIPLY_ASSIGN, .DIVIDE_ASSIGN, .MODULO_ASSIGN] = (false, st2))
    (h : ternaryP st = some (x, st2)) :
    assignmentBody elseTokens ternaryP selfP st = some (x, st2) := by
  simp only [assignmentBody]
  rw [h]
  cases x with
  | none => rfl
  | some e => simp [hc]

theorem c5_assignmentBodyNone (ternaryP selfP : PState → PRes (Option Expr))
    (st : PState) (h : ternaryP st = none) :
    assignmentBody elseTokens ternaryP selfP st = none := by
  simp only [assignmentBody]
  rw [h]

theorem c5_ifBodyNone (exprP : PState → PRes (Option Expr))
    (blockP selfP : PState → PRes Stmt)
    (h : exprP ⟨1, []⟩ = none) :
    ifStatementBody elseTokens exprP blockP selfP ⟨1, []⟩ = none := by
  simp only [ifStatementBody]
  rw [h]

theorem c5_ifBody (exprP : PState → PRes (Option Expr))
    (blockP selfP : PState → PRes Stmt)
    (h : exprP ⟨1, []⟩ = some (some (.identifier "x" 0 0), ⟨2, []⟩))
    (hB : blockP ⟨4, []⟩ = none) :
    ifStatementBody elseTokens exprP blockP selfP ⟨1, []⟩ = none := by
  simp only [ifStatementBody]
  rw [h]
  simp [show consumeP elseTokens ⟨2, []⟩ .COLON
        "Expected \x27:\x27 after if condition" =
      (⟨.COLON, "", 1, 6⟩, ⟨3, []⟩) from rfl,
    show consumeP elseTokens ⟨3, []⟩ .NEWLINE
        "Expected newline after \x27:\x27" =
      (⟨.NEWLINE, "", 2, 1⟩, ⟨4, []⟩) from rfl, hB]

theorem c5_primary (f : Nat) (errs : List String) :
    primary elseTokens (f + 1) ⟨5, errs⟩ =
      some (none, ⟨5, errs ++ ["Expected expression"]⟩) := rfl

theorem c5_call (f : Nat) (errs : List String) :
    call elseTokens f ⟨5, errs⟩ = none ∨
      call elseTokens f ⟨5, errs⟩ =
        some (none, ⟨5, errs ++ ["Expected expression"]⟩) := by
  match f with
  | 0 => exact Or.inl rfl
  | 1 => exact Or.inl rfl
  | f + 2 => exact Or.inr rfl

theorem c5_unary (f : Nat) (errs : List String) :
    unary elseTokens f ⟨5, errs⟩ = none ∨
      unary elseTokens f ⟨5, errs⟩ =
        some (none, ⟨5, errs ++ ["Expected expression"]⟩) := by
  match f with
  | 0 => exact Or.inl rfl
  | f + 1 =>
      have hb : unary elseTokens (f + 1) ⟨5, errs⟩ =
          call elseTokens f ⟨5, errs⟩ := rfl
      rw [hb]
      exact c5_call f errs

theorem c5_factor (f : Nat) (errs : List String) :
    factor elseTokens f ⟨5, errs⟩ = none ∨
      factor elseTokens f ⟨5, errs⟩ =
        some (none, ⟨5, errs ++ ["Expected expression"]⟩) := by
  match f with
  | 0 => exact Or.inl rfl
  | f + 1 =>
      have hb : factor elseTokens (f + 1) ⟨5, errs⟩ =
          (match unary elseTokens f ⟨5, errs⟩ with
           | none => none
           | some (expr, st) =>
               match expr with
               | none => some (none, st)
               | some e => factorLoop elseTokens f st e) := rfl
      rcases c5_unary f errs with h | h
      · exact Or.inl (by rw [hb, h])
      · exact Or.inr (by rw [hb, h])

theorem c5_termLoop (f : Nat) (errs : List String) (x : Option Expr) :
    termLoop elseTokens f ⟨5, errs⟩ x = none ∨
      termLoop elseTokens f ⟨5, errs⟩ x = some (x, ⟨5, errs⟩) := by
  match f with
  | 0 => exact Or.inl rfl
  | f + 1 => exact Or.inr rfl

theorem c5_term (f : Nat) (errs : List String) :
    term elseTokens f ⟨5, errs⟩ = none ∨
      term elseTokens f ⟨5, errs⟩ =
        some (none, ⟨5, errs ++ ["Expected expression"]⟩) := by
  match f with
  | 0 => exact Or.inl rfl
  | f + 1 =>
      have hb : term elseTokens (f + 1) ⟨5, errs⟩ =
          (match factor elseTokens f ⟨5, errs⟩ with
           | none => none
           | some (expr, st) => termLoop elseTokens f st expr) := rfl
      rcases c5_factor f errs with h | h
      · exact Or.inl (by rw [hb, h])
      · rcases c5_termLoop f (errs ++ ["Expected expression"]) none
          with h2 | h2
        · exact Or.inl (by rw [hb, h]; exact h2)
        · exact Or.inr (by rw [hb, h]; exact h2)

theorem c5_comparisonLoop (f : Nat) (errs : List String) (x : Option Expr) :
    comparisonLoop elseTokens f ⟨5, errs⟩ x = none ∨
      comparisonLoop elseTokens f ⟨5, errs⟩ x = some (x, ⟨5, errs⟩) := by
  match f with
  | 0 => exact Or.inl rfl
  | f + 1 => exact Or.inr rfl

theorem c5_comparison (f : Nat) (errs : List String) :
    comparison elseTokens f ⟨5, errs⟩ = none ∨
      comparison elseTokens f ⟨5, errs⟩ =
        some (none, ⟨5, errs ++ ["Expected expression"]⟩) := by
  match f with
  | 0 => exact Or.inl rfl
  | f + 1 =>
      have hb : comparison elseTokens (f + 1) ⟨5, errs⟩ =
          (match term elseTokens f ⟨5, errs⟩ with
           | none => none
           | some (expr, st) => comparisonLoop elseTokens f st expr) := rfl
      rcases c5_term f errs with h | h
      · exact Or.inl (by rw [hb, h])
      · rcases c5_comparisonLoop f (errs ++ ["Expected expression"]) none
          with h2 | h2
        · exact Or.inl (by rw [hb, h]; exact h2)
        · exact Or.inr (by rw [hb, h]; exact h2)

theorem c5_equalityLoop (f : Nat) (errs : List String) (x : Option Expr) :
    equalityLoop elseTokens f ⟨5, errs⟩ x = none ∨
      equalityLoop elseTokens f ⟨5, errs⟩ x = some (x, ⟨5, errs⟩) := by
  match f with
  | 0 => exact Or.inl rfl
  | f + 1 => exact Or.inr rfl

theorem c5_equality (f : Nat) (errs : List String) :
    equality elseTokens f ⟨5, errs⟩ = none ∨
      equality elseTokens f ⟨5, errs⟩ =
        some (none, ⟨5, errs ++ ["Expected expression"]⟩) := by
  match f with
  | 0 => exact Or.inl rfl
  | f + 1 =>
      have hb : equality elseTokens (f + 1) ⟨5, errs⟩ =
          (match comparison elseTokens f ⟨5, errs⟩ with
           | none => none
           | some (expr, st) => equalityLoop elseTokens f st expr) := rfl
      rcases c5_comparison f errs with h | h
      · exact Or.inl (by rw [hb, h])
      · rcases c5_equalityLoop f (errs ++ ["Expected expression"]) none
          with h2 | h2
        · exact Or.inl (by rw [hb, h]; exact h2)
        · exact Or.inr (by rw [hb, h]; exact h2)

theorem c5_logicalAndLoop (f : Nat) (errs : List String) (x : Option Expr) :
    logicalAndLoop elseTokens f ⟨5, errs⟩ x = none ∨
      logicalAndLoop elseTokens f ⟨5, errs⟩ x = some (x, ⟨5, errs⟩) := by
  match f with
  | 0 => exact Or.inl rfl
  | f + 1 => exact Or.inr rfl

theorem c5_logicalAnd (f : Nat) (errs : List String) :
    logicalAnd elseTokens f ⟨5, errs⟩ = none ∨
      logicalAnd elseTokens f ⟨5, errs⟩ =
        some (none, ⟨5, errs ++ ["Expected expression"]⟩) := by
  match f with
  | 0 => exact Or.inl rfl
  | f + 1 =>
      have hb : logicalAnd elseTokens (f + 1) ⟨5, errs⟩ =
          (match equality elseTokens f ⟨5, errs⟩ with
           | none => none
           | some (expr, st) => logicalAndLoop elseTokens f st expr) := rfl
      rcases c5_equality f errs with h | h
      · exact Or.inl (by rw [hb, h])
      · rcases c5_logicalAndLoop f (errs ++ ["Expected expression"]) none
          with h2 | h2
        · exact Or.inl (by rw [hb, h]; exact h2)
        · exact Or.inr (by rw [hb, h]; exact h2)

theorem c5_logicalOr (f : Nat) (errs : List String) :
    logicalOr elseTokens f ⟨5, errs⟩ = none ∨
      logicalOr elseTokens f ⟨5, errs⟩ =
        some (none, ⟨5, errs ++ ["Expected expression"]⟩) := by
  match f with
  | 0 => exact Or.inl rfl
  | f + 1 =>
      have hb : logicalOr elseTokens (f + 1) ⟨5, errs⟩ =
          (match logicalAnd elseTokens f ⟨5, errs⟩ with
           | none => none
           | some (expr, st) =>
               match expr with
               | none => some (none, st)
               | some e => logicalOrLoop elseTokens f st e) := rfl
      rcases c5_logicalAnd f errs with h | h
      · exact Or.inl (by rw [hb, h])
      · exact Or.inr (by rw [hb, h])

theorem c5_ternary (f : Nat) (errs : List String) :
    ternary elseTokens f ⟨5, errs⟩ = none ∨
      ternary elseTokens f ⟨5, errs⟩ =
        some (none, ⟨5, errs ++ ["Expected expression"]⟩) := by
  match f with
  | 0 => exact Or.inl rfl
  | f + 1 =>
      have hb : ternary elseTokens (f + 1) ⟨5, errs⟩ =
          ternaryBody elseTokens (logicalOr elseTokens f)
            (ternary elseTokens f) ⟨5, errs⟩ := rfl
      rcases c5_logicalOr f errs with h | h
      · exact Or.inl (by rw [hb]; exact c5_ternaryBodyNone _ _ _ h)
      · exact Or.inr (by
          rw [hb]; exact c5_ternaryBody _ _ _ _ _ rfl h)

theorem c5_assignment (f : Nat) (errs : List String) :
    assignment elseTokens f ⟨5, errs⟩ = none ∨
      assignment elseTokens f ⟨5, errs⟩ =
        some (none, ⟨5, errs ++ ["Expected expression"]⟩) := by
  match f with
  | 0 => exact Or.inl rfl
  | f + 1 =>
      have hb : assignment elseTokens (f + 1) ⟨5, errs⟩ =
          assignmentBody elseTokens (ternary elseTokens f)
            (assignment elseTokens f) ⟨5, errs⟩ := rfl
      rcases c5_ternary f errs with h | h
      · exact Or.inl (by rw [hb]; exact c5_assignmentBodyNone _ _ _ h)
      · exact Or.inr (by
          rw [hb]; exact c5_assignmentBody _ _ _ _ _ rfl h)

theorem c5_expression (f : Nat) (errs : List String) :
    expression elseTokens f ⟨5, errs⟩ = none ∨
      expression elseTokens f ⟨5, errs⟩ =
        some (none, ⟨5, errs ++ ["Expected expression"]⟩) := by
  match f with
  | 0 => exact Or.inl rfl
  | f + 1 =>
      have hb : expression elseTokens (f + 1) ⟨5, errs⟩ =
          assignment elseTokens f ⟨5, errs⟩ := rfl
      rw [hb]
      exact c5_assignment f errs

theorem c5_exprStatement (f : Nat) (errs : List String) :
    expressionStatement elseTokens f ⟨5, errs⟩ = none ∨
      expressionStatement elseTokens f ⟨5, errs⟩ =
        some (none, ⟨5, errs ++ ["Expected expression"]⟩) := by
  match f with
  | 0 => exact Or.inl rfl
  | f + 1 =>
      have hb : expressionStatement elseTokens (f + 1) ⟨5, errs⟩ =
          (match expression elseTokens f ⟨5, errs⟩ with
           | none => none
           | some (expr, st) =>
               match expr with
               | none => some (none, st)
               | some e =>
                   expressionStatementBody elseTokens
                     (expression elseTokens f) ⟨5, errs⟩) := by
        rcases c5_expression f errs with h | h <;>
          · simp only
              [show expressionStatement elseTokens (f + 1) ⟨5, errs⟩ =
                expressionStatementBody elseTokens (expression elseTokens f)
                  ⟨5, errs⟩ from rfl, expressionStatementBody]
            rw [h]
      rcases c5_expression f errs with h | h
      · exact Or.inl (by rw [hb, h])
      · exact Or.inr (by rw [hb, h])

theorem c5_statement (f : Nat) (errs : List String) :
    statement elseTokens f ⟨5, errs⟩ = none ∨
      statement elseTokens f ⟨5, errs⟩ =
        some (none, ⟨5, errs ++ ["Expected expression"]⟩) := by
  match f with
  | 0 => exact Or.inl rfl
  | f + 1 =>
      have hb : statement elseTokens (f + 1) ⟨5, errs⟩ =
          expressionStatement elseTokens f ⟨5, errs⟩ := rfl
      rw [hb]
      exact c5_exprStatement f errs

theorem c5_blockLoop (f : Nat) : ∀ (errs : List String) (acc : List Stmt),
    blockLoop elseTokens f ⟨5, errs⟩ acc = none := by
  induction f with
  | zero => intro errs acc; rfl
  | succ f ih =>
      intro errs acc
      have hb : blockLoop elseTokens (f + 1) ⟨5, errs⟩ acc =
          (match statement elseTokens f ⟨5, errs⟩ with
           | none => none
           | some (stmtOpt, st) =>
               match stmtOpt with
               | some s => blockLoop elseTokens f st (acc ++ [s])
               | none => blockLoop elseTokens f st acc) := rfl
      rcases c5_statement f errs with h | h
      · rw [hb, h]
      · rw [hb, h]
        exact ih _ _

theorem c5_blockStatement (f : Nat) :
    blockStatement elseTokens f ⟨4, []⟩ = none := by
  match f with
  | 0 => rfl
  | f + 1 =>
      have hb : blockStatement elseTokens (f + 1) ⟨4, []⟩ =
          (match blockLoop elseTokens f ⟨5, []⟩ [] with
           | none => none
           | some (stmts, st) =>
               (match consumeP elseTokens st .DEDENT
                   "Expected dedentation" with
                | (_, st) => some (.block stmts 0 0, st))) := rfl
      rw [hb, c5_blockLoop f [] []]

theorem c5_primaryX (f : Nat) :
    primary elseTokens (f + 1) ⟨1, []⟩ =
      some (some (.identifier "x" 0 0), ⟨2, []⟩) := rfl

theorem c5_callLoopX (f : Nat) (e : Expr) :
    callLoop elseTokens f ⟨2, []⟩ e = none ∨
      callLoop elseTokens f ⟨2, []⟩ e = some (some e, ⟨2, []⟩) := by
  match f with
  | 0 => exact Or.inl rfl
  | f + 1 => exact Or.inr rfl

theorem c5_callX (f : Nat) :
    call elseTokens f ⟨1, []⟩ = none ∨
      call elseTokens f ⟨1, []⟩ =
        some (some (.identifier "x" 0 0), ⟨2, []⟩) := by
  match f with
  | 0 => exact Or.inl rfl
  | f + 1 =>
      have hb : call elseTokens (f + 1) ⟨1, []⟩ =
          (match primary elseTokens f ⟨1, []⟩ with
           | none => none
           | some (expr, st) =>
               match expr with
               | none => some (none, st)
               | some e => callLoop elseTokens f st e) := rfl
      match f with
      | 0 => exact Or.inl rfl
      | f + 1 =>
          rw [hb, c5_primaryX f]
          exact c5_callLoopX (f + 1) (.identifier "x" 0 0)

theorem c5_unaryX (f : Nat) :
    unary elseTokens f ⟨1, []⟩ = none ∨
      unary elseTokens f ⟨1, []⟩ =
        some (some (.identifier "x" 0 0), ⟨2, []⟩) := by
  match f with
  | 0 => exact Or.inl rfl
  | f + 1 =>
      have hb : unary elseTokens (f + 1) ⟨1, []⟩ =
          call elseTokens f ⟨1, []⟩ := rfl
      rw [hb]
      exact c5_callX f

theorem c5_factorLoopX (f : Nat) (e : Expr) :
    factorLoop elseTokens f ⟨2, []⟩ e = none ∨
      factorLoop elseTokens f ⟨2, []⟩ e = some (some e, ⟨2, []⟩) := by
  match f with
  | 0 => exact Or.inl rfl
  | f + 1 => exact Or.inr rfl

theorem c5_factorX (f : Nat) :
    factor elseTokens f ⟨1, []⟩ = none ∨
      factor elseTokens f ⟨1, []⟩ =
        some (some (.identifier "x" 0 0), ⟨2, []⟩) := by
  match f with
  | 0 => exact Or.inl rfl
  | f + 1 =>
      have hb : factor elseTokens (f + 1) ⟨1, []⟩ =
          (match unary elseTokens f ⟨1, []⟩ with
           | none => none
           | some (expr, st) =>
               match expr with
               | none => some (none, st)
               | some e => factorLoop elseTokens f st e) := rfl
      rcases c5_unaryX f with h | h
      · exact Or.inl (by rw [hb, h])
      · rcases c5_factorLoopX f (.identifier "x" 0 0) with h2 | h2
        · exact Or.inl (by rw [hb, h]; exact h2)
        · exact Or.inr (by rw [hb, h]; exact h2)

theorem c5_termLoopX (f : Nat) (x : Option Expr) :
    termLoop elseTokens f ⟨2, []⟩ x = none ∨
      termLoop elseTokens f ⟨2, []⟩ x = some (x, ⟨2, []⟩) := by
  match f with
  | 0 => exact Or.inl rfl
  | f + 1 => exact Or.inr rfl

theorem c5_termX (f : Nat) :
    term elseTokens f ⟨1, []⟩ = none ∨
      term elseTokens f ⟨1, []⟩ =
        some (some (.identifier "x" 0 0), ⟨2, []⟩) := by
  match f with
  | 0 => exact Or.inl rfl
  | f + 1 =>
      have hb : term elseTokens (f + 1) ⟨1, []⟩ =
          (match factor elseTokens f ⟨1, []⟩ with
           | none => none
           | some (expr, st) => termLoop elseTokens f st expr) := rfl
      rcases c5_factorX f with h | h
      · exact Or.inl (by rw [hb, h])
      · rcases c5_termLoopX f (some (.identifier "x" 0 0)) with h2 | h2
        · exact Or.inl (by rw [hb, h]; exact h2)
        · exact Or.inr (by rw [hb, h]; exact h2)

theorem c5_comparisonLoopX (f : Nat) (x : Option Expr) :
    comparisonLoop elseTokens f ⟨2, []⟩ x = none ∨
      comparisonLoop elseTokens f ⟨2, []⟩ x = some (x, ⟨2, []⟩) := by
  match f with
  | 0 => exact Or.inl rfl
  | f + 1 => exact Or.inr rfl

theorem c5_comparisonX (f : Nat) :
    comparison elseTokens f ⟨1, []⟩ = none ∨
      comparison elseTokens f ⟨1, []⟩ =
        some (some (.identifier "x" 0 0), ⟨2, []⟩) := by
  match f with
  | 0 => exact Or.inl rfl
  | f + 1 =>
      have hb : comparison elseTokens (f + 1) ⟨1, []⟩ =
          (match term elseTokens f ⟨1, []⟩ with
           | none => none
           | some (expr, st) => comparisonLoop elseTokens f st expr) := rfl
      rcases c5_termX f with h | h
      · exact Or.inl (by rw [hb, h])
      · rcases c5_comparisonLoopX f (some (.identifier "x" 0 0)) with h2 | h2
        · exact Or.inl (by rw [hb, h]; exact h2)
        · exact Or.inr (by rw [hb, h]; exact h2)

theorem c5_equalityLoopX (f : Nat) (x : Option Expr) :
    equalityLoop elseTokens f ⟨2, []⟩ x = none ∨
      equalityLoop elseTokens f ⟨2, []⟩ x = some (x, ⟨2, []⟩) := by
  match f with
  | 0 => exact Or.inl rfl
  | f + 1 => exact Or.inr rfl

theorem c5_equalityX (f : Nat) :
    equality elseTokens f ⟨1, []⟩ = none ∨
      equality elseTokens f ⟨1, []⟩ =
        some (some (.identifier "x" 0 0), ⟨2, []⟩) := by
  match f with
  | 0 => exact Or.inl rfl
  | f + 1 =>
      have hb : equality elseTokens (f + 1) ⟨1, []⟩ =
          (match comparison elseTokens f ⟨1, []⟩ with
           | none => none
           | some (expr, st) => equalityLoop elseTokens f st expr) := rfl
      rcases c5_comparisonX f with h | h
      · exact Or.inl (by rw [hb, h])
      · rcases c5_equalityLoopX f (some (.identifier "x" 0 0)) with h2 | h2
        · exact Or.inl (by rw [hb, h]; exact h2)
        · exact Or.inr (by rw [hb, h]; exact h2)

theorem c5_logicalAndLoopX (f : Nat) (x : Option Expr) :
    logicalAndLoop elseTokens f ⟨2, []⟩ x = none ∨
      logicalAndLoop elseTokens f ⟨2, []⟩ x = some (x, ⟨2, []⟩) := by
  match f with
  | 0 => exact Or.inl rfl
  | f + 1 => exact Or.inr rfl

theorem c5_logicalAndX (f : Nat) :
    logicalAnd elseTokens f ⟨1, []⟩ = none ∨
      logicalAnd elseTokens f ⟨1, []⟩ =
        some (some (.identifier "x" 0 0), ⟨2, []⟩) := by
  match f with
  | 0 => exact Or.inl rfl
  | f + 1 =>
      have hb : logicalAnd elseTokens (f + 1) ⟨1, []⟩ =
          (match equality elseTokens f ⟨1, []⟩ with
           | none => none
           | some (expr, st) => logicalAndLoop elseTokens f st expr) := rfl
      rcases c5_equalityX f with h | h
      · exact Or.inl (by rw [hb, h])
      · rcases c5_logicalAndLoopX f (some (.identifier "x" 0 0)) with h2 | h2
        · exact Or.inl (by rw [hb, h]; exact h2)
        · exact Or.inr (by rw [hb, h]; exact h2)

theorem c5_logicalOrLoopX (f : Nat) (e : Expr) :
    logicalOrLoop elseTokens f ⟨2, []⟩ e = none ∨
      logicalOrLoop elseTokens f ⟨2, []⟩ e = some (some e, ⟨2, []⟩) := by
  match f with
  | 0 => exact Or.inl rfl
  | f + 1 => exact Or.inr rfl

theorem c5_logicalOrX (f : Nat) :
    logicalOr elseTokens f ⟨1, []⟩ = none ∨
      logicalOr elseTokens f ⟨1, []⟩ =
        some (some (.identifier "x" 0 0), ⟨2, []⟩) := by
  match f with
  | 0 => exact Or.inl rfl
  | f + 1 =>
      have hb : logicalOr elseTokens (f + 1) ⟨1, []⟩ =
          (match logicalAnd elseTokens f ⟨1, []⟩ with
           | none => none
           | some (expr, st) =>
               match expr with
               | none => some (none, st)
               | some e => logicalOrLoop elseTokens f st e) := rfl
      rcases c5_logicalAndX f with h | h
      · exact Or.inl (by rw [hb, h])
      · rcases c5_logicalOrLoopX f (.identifier "x" 0 0) with h2 | h2
        · exact Or.inl (by rw [hb, h]; exact h2)
        · exact Or.inr (by rw [hb, h]; exact h2)

theorem c5_ternaryX (f : Nat) :
    ternary elseTokens f ⟨1, []⟩ = none ∨
      ternary elseTokens f ⟨1, []⟩ =
        some (some (.identifier "x" 0 0), ⟨2, []⟩) := by
  match f with
  | 0 => exact Or.inl rfl
  | f + 1 =>
      have hb : ternary elseTokens (f + 1) ⟨1, []⟩ =
          ternaryBody elseTokens (logicalOr elseTokens f)
            (ternary elseTokens f) ⟨1, []⟩ := rfl
      rcases c5_logicalOrX f with h | h
      · exact Or.inl (by rw [hb]; exact c5_ternaryBodyNone _ _ _ h)
      · exact Or.inr (by
          rw [hb]; exact c5_ternaryBody _ _ _ _ _ rfl h)

theorem c5_assignmentX (f : Nat) :
    assignment elseTokens f ⟨1, []⟩ = none ∨
      assignment elseTokens f ⟨1, []⟩ =
        some (some (.identifier "x" 0 0), ⟨2, []⟩) := by
  match f with
  | 0 => exact Or.inl rfl
  | f + 1 =>
      have hb : assignment elseTokens (f + 1) ⟨1, []⟩ =
          assignmentBody elseTokens (ternary elseTokens f)
            (assignment elseTokens f) ⟨1, []⟩ := rfl
      rcases c5_ternaryX f with h | h
      · exact Or.inl (by rw [hb]; exact c5_assignmentBodyNone _ _ _ h)
      · exact Or.inr (by
          rw [hb]; exact c5_assignmentBody _ _ _ _ _ rfl h)

theorem c5_expressionX (f : Nat) :
    expression elseTokens f ⟨1, []⟩ = none ∨
      expression elseTokens f ⟨1, []⟩ =
        some (some (.identifier "x" 0 0), ⟨2, []⟩) := by
  match f with
  | 0 => exact Or.inl rfl
  | f + 1 =>
      have hb : expression elseTokens (f + 1) ⟨1, []⟩ =
          assignment elseTokens f ⟨1, []⟩ := rfl
      rw [hb]
      exact c5_assignmentX f

theorem c5_ifStatement (f : Nat) :
    ifStatement elseTokens f ⟨1, []⟩ = none := by
  match f with
  | 0 => rfl
  | f + 1 =>
      have hb : ifStatement elseTokens (f + 1) ⟨1, []⟩ =
          ifStatementBody elseTokens (expression elseTokens f)
            (blockStatement elseTokens f) (ifStatement elseTokens f)
            ⟨1, []⟩ := rfl
      rcases c5_expressionX f with h | h
      · rw [hb]; exact c5_ifBodyNone _ _ _ h
      · rw [hb]; exact c5_ifBody _ _ _ h (c5_blockStatement f)

theorem c5_statement0 (f : Nat) :
    statement elseTokens f ⟨0, []⟩ = none := by
  match f with
  | 0 => rfl
  | f + 1 =>
      have hb : statement elseTokens (f + 1) ⟨0, []⟩ =
          (match ifStatement elseTokens f ⟨1, []⟩ with
           | none => none
           | some (s, st) => some (some s, st)) := rfl
      rw [hb, c5_ifStatement f]

theorem c5_parseStep (f : Nat) :
    parseStep elseTokens f ⟨0, []⟩ [] 0 0 0 = none := by
  match f with
  | 0 => rfl
  | f + 1 =>
      have hb : parseStep elseTokens (f + 1) ⟨0, []⟩ [] 0 0 0 =
          (match statement elseTokens f ⟨0, []⟩ with
           | none => none
           | some (stmtOpt, st) =>
               match stmtOpt with
               | some s => parseLoop elseTokens f st ([] ++ [s]) (0 + 1) 0 0
               | none => parseLoop elseTokens f st [] 0 0 0) := rfl
      rw [hb, c5_statement0 f]

theorem c5_parseLoop (f : Nat) :
    parseLoop elseTokens f ⟨0, []⟩ [] 0 (-1) 0 = none := by
  match f with
  | 0 => rfl
  | f + 1 =>
      have hb : parseLoop elseTokens (f + 1) ⟨0, []⟩ [] 0 (-1) 0 =
          parseStep elseTokens f ⟨0, []⟩ [] 0 (Int.ofNat 0) 0 := rfl
      rw [hb]
      exact c5_parseStep f

/-- C5 is refuted: the parser does NOT terminate on every finite token
stream.  On the source `"if x:\n    else\n"` (an `else` at the start of a
block body) `Parser::blockStatement` loops forever at the `ELSE` token,
because `statement()` consumes nothing, returns null, and `blockStatement`
has no stuck-state detection — the forced-advance heuristic exists only in
`Parser::parse`'s own loop.  In the fueled embedding, `parse` on this
input yields `none` at every fuel value. -/
theorem claim_C5 (fuel : Nat) :
    parse (tokenizeStr "if x:\n    else\n") fuel = none := by
  have ht : tokenizeStr "if x:\n    else\n" = elseTokens := by decide
  rw [ht]
  have hb : parse elseTokens fuel =
      (match parseLoop elseTokens fuel ⟨0, []⟩ [] 0 (-1) 0 with
       | none => none
       | some (stmts, st) => some (⟨stmts, 0, 0⟩, st)) := rfl
  rw [hb, c5_parseLoop fuel]

end GDC
